import Mathlib

/-!
# Verification of the spotifydata analytics engine

Shallow embedding of the analytics/aggregation engine (`src/data_loader.py`)
and the genre-enrichment service (`src/spotify_api.py`) of the spotifydata
repository, together with proofs settling the specification claims.

Modelling conventions:
* A pandas `DataFrame` of play events is a `List Event`; a row is a record.
* `NaN` / missing optional fields are `Option` values (`none` = absent).
* Python `dict`s are insertion-ordered association lists (`List (key × value)`)
  with overwrite-in-place update, as CPython dicts behave.
* `ms_played` is a natural number; the derived `minutes_played` column
  (`ms_played / 60000`, a float in the source) is modelled exactly as a
  rational number.
* Python string comparison and lowercasing are modelled on the character
  (code-point) level: `List Char` with `Char.toLower` (ASCII case folding,
  which is what the data in question exercises).
* Network effects are modelled by response oracles: a function from
  (batch index, attempt index) to the parsed HTTP outcome.  Sleeps and
  requests are recorded in an explicit log so that rate-limit/retry
  behaviour is observable.
-/

namespace SpotifyData

/-! ## Python dicts as insertion-ordered association lists -/

/-- `d[k] = v` on a Python dict: overwrite in place if the key is present
(keeping its position, as CPython does), otherwise append. -/
def dictInsert {α : Type} (d : List (String × α)) (k : String) (v : α) :
    List (String × α) :=
  if d.any (fun p => decide (p.1 = k)) then
    d.map (fun p => if p.1 = k then (k, v) else p)
  else d ++ [(k, v)]

/-- `d.update(es)` / a sequence of `d[k] = v` statements. -/
def dictUpdateMany {α : Type} (d : List (String × α)) (es : List (String × α)) :
    List (String × α) :=
  es.foldl (fun acc e => dictInsert acc e.1 e.2) d

/-- `d.get(k)`: lookup in a Python dict. -/
def dictLookup {α : Type} (d : List (String × α)) (k : String) : Option α :=
  (d.find? (fun p => decide (p.1 = k))).map (·.2)

theorem dictUpdateMany_append {α : Type} (d : List (String × α))
    (e₁ e₂ : List (String × α)) :
    dictUpdateMany (dictUpdateMany d e₁) e₂ = dictUpdateMany d (e₁ ++ e₂) := by
  simp [dictUpdateMany, List.foldl_append]

/-! ## First-occurrence deduplication (pandas `Series.unique`) -/

/-- `pandas.Series.unique` / iterating and skipping already-seen values:
keeps the first occurrence of each value, in input order. -/
def dedupFirst {α : Type} [DecidableEq α] (seen : List α) : List α → List α
  | [] => []
  | a :: l => if a ∈ seen then dedupFirst seen l else a :: dedupFirst (a :: seen) l

/-! ## Insertion sorts

`pandas.groupby(sort=True)` emits groups in ascending key order (a total
order, so any correct sort yields the same list); we realise the
ascending key sort as an insertion sort.

`DataFrame.sort_values` (descending by a metric column) is different: its
default kind, numpy's introsort, carries *no tie-order guarantee* — it is
unstable once a partition exceeds the 16-element insertion-sort cutoff.
The model must still be a function, so `sortDescBy` fixes one admissible
determinization (a stable insertion sort).  Because the source's tie
order is unspecified, claim-level theorems about sorted output only use
tie-order-independent consequences — length, membership, sortedness by
the metric — and concrete evaluations stay on frames below the cutoff,
where numpy itself degenerates to exactly this stable insertion sort. -/

def insertAsc {κ : Type} (lt : κ → κ → Bool) (x : κ) : List κ → List κ
  | [] => [x]
  | y :: ys => if lt x y then x :: y :: ys else y :: insertAsc lt x ys

def sortAsc {κ : Type} (lt : κ → κ → Bool) (l : List κ) : List κ :=
  l.foldr (insertAsc lt) []

/-- One admissible determinization of `sort_values(ascending=False)`:
descending stable insertion sort — `x` is placed before the first element
whose metric is `≤` its own, so earlier elements win ties.  Exact for
frames below numpy's introsort cutoff; for larger frames only properties
that hold for every permutation sorted by the metric are asserted. -/
def insertDescBy {α β : Type} [LinearOrder β] (m : α → β) (x : α) :
    List α → List α
  | [] => [x]
  | y :: ys => if m x < m y then y :: insertDescBy m x ys else x :: y :: ys

def sortDescBy {α β : Type} [LinearOrder β] (m : α → β) (l : List α) : List α :=
  l.foldr (insertDescBy m) []

theorem mem_insertAsc {κ : Type} (lt : κ → κ → Bool) (x a : κ) (l : List κ) :
    a ∈ insertAsc lt x l ↔ a = x ∨ a ∈ l := by
  induction l with
  | nil => simp [insertAsc]
  | cons y ys ih =>
    by_cases h : lt x y
    · simp [insertAsc, h]
    · simp only [insertAsc, h, if_neg, Bool.false_eq_true, if_false,
        List.mem_cons, ih]
      tauto

theorem mem_sortAsc {κ : Type} (lt : κ → κ → Bool) (a : κ) (l : List κ) :
    a ∈ sortAsc lt l ↔ a ∈ l := by
  induction l with
  | nil => simp [sortAsc]
  | cons y ys ih =>
    show a ∈ insertAsc lt y (sortAsc lt ys) ↔ _
    rw [mem_insertAsc]
    simp [ih]

theorem nodup_insertAsc {κ : Type} (lt : κ → κ → Bool) (x : κ) (l : List κ)
    (hx : x ∉ l) (hl : l.Nodup) : (insertAsc lt x l).Nodup := by
  induction l with
  | nil => simp [insertAsc]
  | cons y ys ih =>
    by_cases h : lt x y
    · simp only [insertAsc, h, if_true]
      refine List.nodup_cons.mpr ⟨?_, hl⟩
      intro hmem
      exact hx hmem
    · simp only [insertAsc, h, Bool.false_eq_true, if_false]
      rcases List.nodup_cons.mp hl with ⟨hy, hys⟩
      refine List.nodup_cons.mpr ⟨?_, ih (fun hm => hx (List.mem_cons_of_mem _ hm)) hys⟩
      rw [mem_insertAsc]
      rintro (rfl | hm)
      · exact hx (List.mem_cons_self _ _)
      · exact hy hm

theorem nodup_sortAsc {κ : Type} (lt : κ → κ → Bool) (l : List κ)
    (hl : l.Nodup) : (sortAsc lt l).Nodup := by
  induction l with
  | nil => simp [sortAsc]
  | cons y ys ih =>
    rcases List.nodup_cons.mp hl with ⟨hy, hys⟩
    show (insertAsc lt y (sortAsc lt ys)).Nodup
    exact nodup_insertAsc lt y _ (fun hm => hy ((mem_sortAsc lt y ys).mp hm)) (ih hys)

theorem pairwise_insertAsc {κ : Type} {lt : κ → κ → Bool}
    (htr : ∀ a b c, lt a b = true → lt b c = true → lt a c = true)
    (hco : ∀ a b, a ≠ b → lt a b = true ∨ lt b a = true)
    (x : κ) (l : List κ) (hx : x ∉ l)
    (hp : l.Pairwise (fun a b => lt a b = true)) :
    (insertAsc lt x l).Pairwise (fun a b => lt a b = true) := by
  induction l with
  | nil => simp [insertAsc]
  | cons y ys ih =>
    rcases List.pairwise_cons.mp hp with ⟨hy, hys⟩
    by_cases h : lt x y
    · simp only [insertAsc, h, if_true]
      refine List.pairwise_cons.mpr ⟨?_, hp⟩
      intro z hz
      rcases List.mem_cons.mp hz with rfl | hz
      · exact h
      · exact htr x y z h (hy z hz)
    · simp only [insertAsc, h, Bool.false_eq_true, if_false]
      refine List.pairwise_cons.mpr ⟨?_, ih (fun hm => hx (List.mem_cons_of_mem _ hm)) hys⟩
      intro z hz
      rcases (mem_insertAsc lt x z ys).mp hz with rfl | hz
      · rcases hco y z (fun he => hx (he ▸ List.mem_cons_self _ _)) with hlt | hlt
        · exact hlt
        · exact absurd hlt h
      · exact hy z hz

theorem pairwise_sortAsc {κ : Type} {lt : κ → κ → Bool}
    (htr : ∀ a b c, lt a b = true → lt b c = true → lt a c = true)
    (hco : ∀ a b, a ≠ b → lt a b = true ∨ lt b a = true)
    (l : List κ) (hl : l.Nodup) :
    (sortAsc lt l).Pairwise (fun a b => lt a b = true) := by
  induction l with
  | nil => simp [sortAsc]
  | cons y ys ih =>
    rcases List.nodup_cons.mp hl with ⟨hy, hys⟩
    show (insertAsc lt y (sortAsc lt ys)).Pairwise _
    exact pairwise_insertAsc htr hco y _
      (fun hm => hy ((mem_sortAsc lt y ys).mp hm)) (ih hys)

theorem mem_insertDescBy {α β : Type} [LinearOrder β] (m : α → β) (x a : α)
    (l : List α) : a ∈ insertDescBy m x l ↔ a = x ∨ a ∈ l := by
  induction l with
  | nil => simp [insertDescBy]
  | cons y ys ih =>
    by_cases h : m x < m y
    · simp only [insertDescBy, h, if_true, List.mem_cons, ih]
      tauto
    · simp [insertDescBy, h]

theorem mem_sortDescBy {α β : Type} [LinearOrder β] (m : α → β) (a : α)
    (l : List α) : a ∈ sortDescBy m l ↔ a ∈ l := by
  induction l with
  | nil => simp [sortDescBy]
  | cons y ys ih =>
    show a ∈ insertDescBy m y (sortDescBy m ys) ↔ _
    rw [mem_insertDescBy]
    simp [ih]

theorem length_insertDescBy {α β : Type} [LinearOrder β] (m : α → β) (x : α)
    (l : List α) : (insertDescBy m x l).length = l.length + 1 := by
  induction l with
  | nil => simp [insertDescBy]
  | cons y ys ih =>
    by_cases h : m x < m y
    · simp [insertDescBy, h, ih]
    · simp [insertDescBy, h]

theorem length_sortDescBy {α β : Type} [LinearOrder β] (m : α → β)
    (l : List α) : (sortDescBy m l).length = l.length := by
  induction l with
  | nil => rfl
  | cons y ys ih =>
    show (insertDescBy m y (sortDescBy m ys)).length = _
    rw [length_insertDescBy, ih]
    simp

theorem pairwise_insertDescBy {α β : Type} [LinearOrder β] {m : α → β}
    {K : α → α → Prop} (x : α) (l : List α)
    (hK : ∀ z ∈ l, K x z)
    (hp : l.Pairwise (fun s t => m t < m s ∨ (m s = m t ∧ K s t))) :
    (insertDescBy m x l).Pairwise (fun s t => m t < m s ∨ (m s = m t ∧ K s t)) := by
  induction l with
  | nil => simp [insertDescBy]
  | cons y ys ih =>
    rcases List.pairwise_cons.mp hp with ⟨hy, hys⟩
    by_cases h : m x < m y
    · simp only [insertDescBy, h, if_true]
      refine List.pairwise_cons.mpr ⟨?_, ih (fun z hz => hK z (List.mem_cons_of_mem _ hz)) hys⟩
      intro z hz
      rcases (mem_insertDescBy m x z ys).mp hz with rfl | hz
      · exact Or.inl h
      · exact hy z hz
    · simp only [insertDescBy, h, if_false]
      refine List.pairwise_cons.mpr ⟨?_, hp⟩
      intro z hz
      rcases List.mem_cons.mp hz with rfl | hz
      · rcases lt_or_eq_of_le (not_lt.mp h) with hlt | heq
        · exact Or.inl hlt
        · exact Or.inr ⟨heq.symm, hK z (List.mem_cons_self _ _)⟩
      · have hyz := hy z hz
        have hzy : m z ≤ m y := by
          rcases hyz with hlt | ⟨heq, _⟩
          · exact le_of_lt hlt
          · exact le_of_eq heq.symm
        have hzx : m z ≤ m x := le_trans hzy (not_lt.mp h)
        rcases lt_or_eq_of_le hzx with hlt | heq
        · exact Or.inl hlt
        · exact Or.inr ⟨heq.symm, hK z (List.mem_cons_of_mem _ hz)⟩

theorem pairwise_sortDescBy {α β : Type} [LinearOrder β] {m : α → β}
    {K : α → α → Prop} (l : List α) (hl : l.Pairwise K) :
    (sortDescBy m l).Pairwise (fun s t => m t < m s ∨ (m s = m t ∧ K s t)) := by
  induction l with
  | nil => simp [sortDescBy]
  | cons y ys ih =>
    rcases List.pairwise_cons.mp hl with ⟨hy, hys⟩
    show (insertDescBy m y (sortDescBy m ys)).Pairwise _
    exact pairwise_insertDescBy y _
      (fun z hz => hy z ((mem_sortDescBy m z ys).mp hz)) (ih hys)

/-! ## Counting partitions (for the heatmap total) -/

theorem sum_map_zero {κ : Type} (ks : List κ) :
    (ks.map (fun _ => (0 : Nat))).sum = 0 := by
  induction ks with
  | nil => rfl
  | cons k ks ih => simp [ih]

theorem sum_map_add {κ : Type} (ks : List κ) (g h : κ → Nat) :
    (ks.map (fun k => g k + h k)).sum = (ks.map g).sum + (ks.map h).sum := by
  induction ks with
  | nil => rfl
  | cons k ks ih => simp [ih]; omega

theorem sum_map_ite_zero {κ : Type} [DecidableEq κ] (x : κ) (ks : List κ)
    (hx : x ∉ ks) :
    (ks.map (fun k => if x = k then (1 : Nat) else 0)).sum = 0 := by
  induction ks with
  | nil => rfl
  | cons k ks ih =>
    have hxk : x ≠ k := fun he => hx (he ▸ List.mem_cons_self _ _)
    simp only [List.map_cons, List.sum_cons, if_neg hxk]
    rw [ih (fun hm => hx (List.mem_cons_of_mem _ hm))]

theorem sum_map_ite_one {κ : Type} [DecidableEq κ] (x : κ) (ks : List κ)
    (hnd : ks.Nodup) (hx : x ∈ ks) :
    (ks.map (fun k => if x = k then (1 : Nat) else 0)).sum = 1 := by
  induction ks with
  | nil => cases hx
  | cons k ks ih =>
    rcases List.nodup_cons.mp hnd with ⟨hk, hks⟩
    by_cases he : x = k
    · subst he
      simp only [List.map_cons, List.sum_cons, if_pos rfl]
      rw [sum_map_ite_zero x ks hk]
      simp
    · rcases List.mem_cons.mp hx with rfl | hxm
      · exact absurd rfl he
      · simp only [List.map_cons, List.sum_cons, if_neg he]
        rw [ih hks hxm]

theorem sum_map_countP_eq_length {α κ : Type} [DecidableEq κ] (f : α → κ)
    (l : List α) (ks : List κ) (hnd : ks.Nodup) (hcov : ∀ a ∈ l, f a ∈ ks) :
    (ks.map (fun k => l.countP (fun a => decide (f a = k)))).sum = l.length := by
  induction l with
  | nil => simpa using sum_map_zero ks
  | cons a l ih =>
    have hstep : ∀ k : κ, (a :: l).countP (fun x => decide (f x = k)) =
        l.countP (fun x => decide (f x = k)) + (if f a = k then 1 else 0) := by
      intro k
      rw [List.countP_cons]
      by_cases h : f a = k
      · simp [h]
      · simp [h]
    calc (ks.map (fun k => (a :: l).countP (fun x => decide (f x = k)))).sum
        = (ks.map (fun k =>
            l.countP (fun x => decide (f x = k)) + (if f a = k then 1 else 0))).sum := by
          congr 1
          exact List.map_congr_left (fun k _ => hstep k)
      _ = (ks.map (fun k => l.countP (fun x => decide (f x = k)))).sum +
          (ks.map (fun k => if f a = k then (1 : Nat) else 0)).sum :=
          sum_map_add ks _ _
      _ = l.length + 1 := by
          rw [ih (fun x hx => hcov x (List.mem_cons_of_mem _ hx)),
            sum_map_ite_one (f a) ks hnd (hcov a (List.mem_cons_self _ _))]
      _ = (a :: l).length := by simp

/-! ## Batching in chunks of 50 (`for i in range(0, len(ids), 50)`) -/

/-- The batch list produced by `for i in range(0, len(ids), 50):
batch = ids[i:i+50]`. -/
def chunks50 {α : Type} : List α → List (List α)
  | [] => []
  | a :: l => ((a :: l).take 50) :: chunks50 ((a :: l).drop 50)
termination_by l => l.length
decreasing_by
  simp only [List.length_drop, List.length_cons]
  omega

theorem chunks50_length {α : Type} (l : List α) :
    (chunks50 l).length = (l.length + 49) / 50 := by
  induction l using chunks50.induct with
  | case1 => simp [chunks50]
  | case2 a l ih =>
    rw [chunks50]
    simp only [List.length_cons, List.length_drop] at ih ⊢
    rw [ih]
    have h1 : l.length + 1 + 49 = l.length + 50 := by omega
    rw [h1, Nat.add_div_right _ (by norm_num)]
    by_cases h50 : 50 ≤ l.length + 1
    · have h2 : l.length + 1 - 50 + 49 = l.length := by omega
      rw [h2]
    · have h2 : l.length + 1 - 50 + 49 = 49 := by omega
      have h3 : l.length / 50 = 0 := Nat.div_eq_of_lt (by omega)
      rw [h2, h3]

theorem chunks50_mem_length {α : Type} (l : List α) (b : List α)
    (hb : b ∈ chunks50 l) : b.length ≤ 50 := by
  induction l using chunks50.induct with
  | case1 => simp [chunks50] at hb
  | case2 a l ih =>
    rw [chunks50] at hb
    rcases List.mem_cons.mp hb with rfl | hb
    · simpa using List.length_take_le 50 (a :: l)
    · exact ih hb

/-! ## Character-level string operations

Python compares strings lexicographically by code point and lowercases
per character; we realise both on `List Char`. -/

/-- Python string `<`: lexicographic comparison by code point. -/
def chsLt : List Char → List Char → Bool
  | [], [] => false
  | [], _ :: _ => true
  | _ :: _, [] => false
  | a :: as, b :: bs => if a < b then true else if b < a then false else chsLt as bs

def strLt (a b : String) : Bool := chsLt a.data b.data

/-- `str.lower()`, per character (ASCII case folding). -/
def lowerChs (s : String) : List Char := s.data.map Char.toLower

/-- `s.startswith(p)`. -/
def chsStarts : List Char → List Char → Bool
  | [], _ => true
  | _ :: _, [] => false
  | a :: as, b :: bs => decide (a = b) && chsStarts as bs

/-- `s.split(sep)` for a one-character separator (Python semantics:
`"a:b".split(":") == ["a","b"]`, empty segments preserved). -/
def splitChs (sep : Char) : List Char → List (List Char)
  | [] => [[]]
  | c :: cs =>
    if c = sep then [] :: splitChs sep cs
    else
      match splitChs sep cs with
      | [] => [[c]]
      | seg :: rest => (c :: seg) :: rest

theorem chsLt_trans (a b c : List Char) (h1 : chsLt a b = true)
    (h2 : chsLt b c = true) : chsLt a c = true := by
  induction a generalizing b c with
  | nil =>
    cases b with
    | nil => simp [chsLt] at h1
    | cons y ys =>
      cases c with
      | nil => simp [chsLt] at h2
      | cons z zs => simp [chsLt]
  | cons x xs ih =>
    cases b with
    | nil => simp [chsLt] at h1
    | cons y ys =>
      cases c with
      | nil => simp [chsLt] at h2
      | cons z zs =>
        simp only [chsLt] at h1 h2 ⊢
        by_cases hxy : x < y
        · by_cases hyz : y < z
          · have hxz : x < z := lt_trans hxy hyz
            simp [hxz]
          · by_cases hzy : z < y
            · simp [hyz, hzy] at h2
            · have hyz2 : y = z := le_antisymm (not_lt.mp hzy) (not_lt.mp hyz)
              subst hyz2
              simp [hxy]
        · by_cases hyx : y < x
          · simp [hxy, hyx] at h1
          · have hxy2 : x = y := le_antisymm (not_lt.mp hyx) (not_lt.mp hxy)
            subst hxy2
            by_cases hyz : x < z
            · simp [hyz]
            · by_cases hzy : z < x
              · simp [hyz, hzy] at h2
              · have hyz2 : x = z := le_antisymm (not_lt.mp hzy) (not_lt.mp hyz)
                subst hyz2
                simp [lt_irrefl] at h1 h2 ⊢
                exact ih _ _ h1 h2

theorem chsLt_conn (a b : List Char) (h : a ≠ b) :
    chsLt a b = true ∨ chsLt b a = true := by
  induction a generalizing b with
  | nil =>
    cases b with
    | nil => exact absurd rfl h
    | cons y ys => left; simp [chsLt]
  | cons x xs ih =>
    cases b with
    | nil => right; simp [chsLt]
    | cons y ys =>
      by_cases hxy : x < y
      · left; simp [chsLt, hxy]
      · by_cases hyx : y < x
        · right; simp [chsLt, hyx]
        · have hxy2 : x = y := le_antisymm (not_lt.mp hyx) (not_lt.mp hxy)
          subst hxy2
          have hne : xs ≠ ys := fun he => h (he ▸ rfl)
          rcases ih ys hne with hlt | hlt
          · left; simp [chsLt, lt_irrefl, hlt]
          · right; simp [chsLt, lt_irrefl, hlt]

theorem strLt_trans (a b c : String) (h1 : strLt a b = true)
    (h2 : strLt b c = true) : strLt a c = true :=
  chsLt_trans a.data b.data c.data h1 h2

theorem strLt_conn (a b : String) (h : a ≠ b) :
    strLt a b = true ∨ strLt b a = true :=
  chsLt_conn a.data b.data (fun he => h (String.ext he))

/-! ## Substring search and the regex fragment behind `str.contains`

`pandas.Series.str.contains(pat)` interprets `pat` as a *regular
expression* (`re.search`).  We embed the fragment of Python regexes in
which every character is either a literal or the wildcard `.`; on
patterns free of metacharacters this coincides with substring search,
which is exactly the comparison the spec claim calls for. -/

inductive RTok : Type where
  | lit (c : Char)
  | dot
deriving DecidableEq

/-- Compile a pattern of the embedded fragment: `.` is the any-character
wildcard, everything else matches literally.  This embeds `re.search`
*only* for patterns made of literals and `.`.  A query containing any
other regex metacharacter (`*`, `+`, `?`, `(`, `)`, `[`, `]`, `{`, `}`,
`|`, `^`, `$`, `\`) has full regex semantics in the source — or raises
`re.error` if the pattern is malformed — and lies outside the fragment:
no theorem below asserts anything about the source on such queries
(`reMeta` is the guard the theorems use). -/
def reToks (pat : List Char) : List RTok :=
  pat.map (fun c => if c = '.' then RTok.dot else RTok.lit c)

/-- The special characters of Python's `re` pattern language. -/
def reMeta : List Char :=
  ['.', '^', '$', '*', '+', '?', '{', '}', '[', ']', '\\', '|', '(', ')']

def tokMatch : RTok → Char → Bool
  | RTok.lit c, d => decide (c = d)
  | RTok.dot, _ => true

/-- Does the token list match a prefix of `s`? -/
def matchHere : List RTok → List Char → Bool
  | [], _ => true
  | _ :: _, [] => false
  | t :: ts, c :: cs => tokMatch t c && matchHere ts cs

/-- `re.search`: does the pattern match at some position of `s`? -/
def reSearch (p : List RTok) : List Char → Bool
  | [] => matchHere p []
  | c :: cs => matchHere p (c :: cs) || reSearch p cs

/-- Literal substring occurrence test, prefix-at-a-position form. -/
def subHere : List Char → List Char → Bool
  | [], _ => true
  | _ :: _, [] => false
  | q :: qs, c :: cs => decide (q = c) && subHere qs cs

/-- `q` occurs as a contiguous substring of `s`. -/
def subSearch (q : List Char) : List Char → Bool
  | [] => subHere q []
  | c :: cs => subHere q (c :: cs) || subSearch q cs

/-- The spec-side matching predicate: case-insensitive *substring*
occurrence of the query in the value.  Modelled from the spec:
"case-insensitive substring match". -/
def substrCI (q s : String) : Bool :=
  subSearch (lowerChs q) (lowerChs s)

theorem matchHere_of_dotFree (q : List Char) (hq : '.' ∉ q) (s : List Char) :
    matchHere (reToks q) s = subHere q s := by
  induction q generalizing s with
  | nil => simp [reToks, matchHere, subHere]
  | cons a as ih =>
    have ha : a ≠ '.' := fun he => hq (he ▸ List.mem_cons_self _ _)
    have has : '.' ∉ as := fun hm => hq (List.mem_cons_of_mem _ hm)
    cases s with
    | nil => simp [reToks, matchHere, subHere, ha]
    | cons c cs =>
      simp only [reToks, List.map_cons, matchHere, subHere, if_neg ha, tokMatch]
      rw [← reToks, ih has cs]

theorem reSearch_of_dotFree (q : List Char) (hq : '.' ∉ q) (s : List Char) :
    reSearch (reToks q) s = subSearch q s := by
  induction s with
  | nil =>
    show matchHere (reToks q) [] = subHere q []
    exact matchHere_of_dotFree q hq []
  | cons c cs ih =>
    show (matchHere (reToks q) (c :: cs) || reSearch (reToks q) cs) = _
    rw [matchHere_of_dotFree q hq, ih]
    rfl

/-! ## Data model

`pd.to_datetime` is modelled as already-parsed timestamp records: `ord` is
the point on the time line (used for `min`/`max`/ordering of `ts`), the
remaining fields are the calendar projections `dt.year`, `dt.month`,
`dt.day`, `dt.hour`, `dt.dayofweek` that `preprocess_data` materialises as
columns.  The presentational derived columns `day_name` and `date` are not
used by any claim and are omitted. -/

structure Timestamp where
  ord : Nat
  year : Nat
  month : Nat
  day : Nat
  hour : Nat
  dayOfWeek : Nat
deriving DecidableEq

/-- A raw streaming-history record, field names as in the export JSON. -/
structure RawEvent where
  ts : Timestamp
  ms_played : Nat
  master_metadata_track_name : Option String
  master_metadata_album_artist_name : Option String
  master_metadata_album_album_name : Option String
  episode_name : Option String
  audiobook_title : Option String
  skipped : Bool
  platform : Option String
  spotify_track_uri : Option String
deriving DecidableEq

/-- A canonical `PlayEvent` row after `preprocess_data`: renamed metadata
columns plus the derived time columns. -/
structure Event where
  ts : Timestamp
  ms_played : Nat
  track : Option String
  artist : Option String
  album : Option String
  episode_name : Option String
  audiobook_title : Option String
  skipped : Bool
  platform : Option String
  spotify_track_uri : Option String
  year : Nat
  month : Nat
  day : Nat
  hour : Nat
  day_of_week : Nat
deriving DecidableEq

/-- The derived `minutes_played` column: `ms_played / 60000`, exact. -/
def Event.minutes_played (e : Event) : ℚ := (e.ms_played : ℚ) / 60000

/-- Column derivation and renaming done by `preprocess_data` on one row. -/
def toEvent (r : RawEvent) : Event :=
  { ts := r.ts
    ms_played := r.ms_played
    track := r.master_metadata_track_name
    artist := r.master_metadata_album_artist_name
    album := r.master_metadata_album_album_name
    episode_name := r.episode_name
    audiobook_title := r.audiobook_title
    skipped := r.skipped
    platform := r.platform
    spotify_track_uri := r.spotify_track_uri
    year := r.ts.year
    month := r.ts.month
    day := r.ts.day
    hour := r.ts.hour
    day_of_week := r.ts.dayOfWeek }

/-- `preprocess_data`: derive time columns, rename metadata columns, and
keep music only — rows with a (non-null) track name and null
`episode_name` and `audiobook_title`. -/
def preprocess_data (df : List RawEvent) : List Event :=
  (df.map toEvent).filter fun e =>
    e.track.isSome && e.episode_name.isNone && e.audiobook_title.isNone

/-- One `PlaylistEntry` row, as flattened by `get_all_playlist_tracks`. -/
structure PlaylistRow where
  playlist : String
  track : Option String
  artist : Option String
  album : Option String
  uri : Option String
deriving DecidableEq

/-! ## Key orders used by `groupby(sort=True)` -/

def natLtB (a b : Nat) : Bool := decide (a < b)

/-- Python tuple comparison on `(track, artist)` string pairs. -/
def pairLtB (a b : String × String) : Bool :=
  strLt a.1 b.1 || (decide (a.1 = b.1) && strLt a.2 b.2)

/-- Python tuple comparison on `(track, artist, album)` string triples. -/
def tripleLtB (a b : String × String × String) : Bool :=
  strLt a.1 b.1 || (decide (a.1 = b.1) && pairLtB a.2 b.2)

theorem natLtB_trans (a b c : Nat) (h1 : natLtB a b = true)
    (h2 : natLtB b c = true) : natLtB a c = true := by
  simp only [natLtB, decide_eq_true_eq] at *
  omega

theorem natLtB_conn (a b : Nat) (h : a ≠ b) :
    natLtB a b = true ∨ natLtB b a = true := by
  simp only [natLtB, decide_eq_true_eq]
  omega

theorem pairLtB_trans (a b c : String × String) (h1 : pairLtB a b = true)
    (h2 : pairLtB b c = true) : pairLtB a c = true := by
  simp only [pairLtB, Bool.or_eq_true, Bool.and_eq_true, decide_eq_true_eq] at *
  rcases h1 with h1 | ⟨h1e, h1s⟩
  · rcases h2 with h2 | ⟨h2e, h2s⟩
    · exact Or.inl (strLt_trans _ _ _ h1 h2)
    · exact Or.inl (h2e ▸ h1)
  · rcases h2 with h2 | ⟨h2e, h2s⟩
    · exact Or.inl (h1e ▸ h2)
    · exact Or.inr ⟨h1e.trans h2e, strLt_trans _ _ _ h1s h2s⟩

theorem pairLtB_conn (a b : String × String) (h : a ≠ b) :
    pairLtB a b = true ∨ pairLtB b a = true := by
  simp only [pairLtB, Bool.or_eq_true, Bool.and_eq_true, decide_eq_true_eq]
  by_cases h1 : a.1 = b.1
  · have h2 : a.2 ≠ b.2 := by
      intro h2
      exact h (Prod.ext h1 h2)
    rcases strLt_conn a.2 b.2 h2 with hs | hs
    · exact Or.inl (Or.inr ⟨h1, hs⟩)
    · exact Or.inr (Or.inr ⟨h1.symm, hs⟩)
  · rcases strLt_conn a.1 b.1 h1 with hs | hs
    · exact Or.inl (Or.inl hs)
    · exact Or.inr (Or.inl hs)

theorem tripleLtB_trans (a b c : String × String × String)
    (h1 : tripleLtB a b = true) (h2 : tripleLtB b c = true) :
    tripleLtB a c = true := by
  simp only [tripleLtB, Bool.or_eq_true, Bool.and_eq_true, decide_eq_true_eq] at *
  rcases h1 with h1 | ⟨h1e, h1s⟩
  · rcases h2 with h2 | ⟨h2e, h2s⟩
    · exact Or.inl (strLt_trans _ _ _ h1 h2)
    · exact Or.inl (h2e ▸ h1)
  · rcases h2 with h2 | ⟨h2e, h2s⟩
    · exact Or.inl (h1e ▸ h2)
    · exact Or.inr ⟨h1e.trans h2e, pairLtB_trans _ _ _ h1s h2s⟩

theorem tripleLtB_conn (a b : String × String × String) (h : a ≠ b) :
    tripleLtB a b = true ∨ tripleLtB b a = true := by
  simp only [tripleLtB, Bool.or_eq_true, Bool.and_eq_true, decide_eq_true_eq]
  by_cases h1 : a.1 = b.1
  · have h2 : a.2 ≠ b.2 := by
      intro h2
      exact h (Prod.ext h1 h2)
    rcases pairLtB_conn a.2 b.2 h2 with hs | hs
    · exact Or.inl (Or.inr ⟨h1, hs⟩)
    · exact Or.inr (Or.inr ⟨h1.symm, hs⟩)
  · rcases strLt_conn a.1 b.1 h1 with hs | hs
    · exact Or.inl (Or.inl hs)
    · exact Or.inr (Or.inl hs)

/-! ## Aggregation engine (`groupby` scaffolding)

`df.groupby(keys, sort=True)` (the pandas default used throughout the
source): rows whose group key contains a null are dropped, the remaining
distinct keys are emitted in ascending order, and each group keeps the
input row order. -/

def groupRows {κ : Type} [DecidableEq κ] (keyOf : Event → Option κ) (k : κ)
    (df : List Event) : List Event :=
  df.filter (fun e => decide (keyOf e = some k))

def groupKeys {κ : Type} [DecidableEq κ] (lt : κ → κ → Bool)
    (keyOf : Event → Option κ) (df : List Event) : List κ :=
  sortAsc lt ((df.filterMap keyOf).dedup)

/-- One output row of `groupby(...).agg(play_count=..., total_minutes=...)`. -/
structure GroupStat (κ : Type) where
  key : κ
  play_count : Nat
  total_minutes : ℚ
deriving DecidableEq

def aggPlayMinutes {κ : Type} [DecidableEq κ] (lt : κ → κ → Bool)
    (keyOf : Event → Option κ) (df : List Event) : List (GroupStat κ) :=
  (groupKeys lt keyOf df).map (fun k =>
    let g := groupRows keyOf k df
    ⟨k, g.length, (g.map Event.minutes_played).sum⟩)

/-- `sort_col = "play_count" if by == "plays" else "total_minutes"`. -/
def metricOf {κ : Type} (byStr : String) (s : GroupStat κ) : ℚ :=
  if byStr = "plays" then (s.play_count : ℚ) else s.total_minutes

/-- `df if year is None else df[df["year"] == year]`. -/
def yearFilter (year : Option Nat) (df : List Event) : List Event :=
  match year with
  | none => df
  | some y => df.filter (fun e => decide (e.year = y))

def artistKey (e : Event) : Option String := e.artist

def trackArtistKey (e : Event) : Option (String × String) :=
  match e.track, e.artist with
  | some t, some a => some (t, a)
  | _, _ => none

def trackArtistAlbumKey (e : Event) : Option (String × String × String) :=
  match e.track, e.artist, e.album with
  | some t, some a, some al => some (t, a, al)
  | _, _, _ => none

/-- `get_top_artists`: group by artist, aggregate, sort by the requested
metric descending, truncate. -/
def get_top_artists (df : List Event) (year : Option Nat) (limit : Nat)
    (byStr : String) : List (GroupStat String) :=
  let filtered := yearFilter year df
  let stats := aggPlayMinutes strLt artistKey filtered
  (sortDescBy (metricOf byStr) stats).take limit

/-- `get_top_tracks`: group by `(track, artist)`, aggregate, sort by the
requested metric descending, truncate. -/
def get_top_tracks (df : List Event) (year : Option Nat) (limit : Nat)
    (byStr : String) : List (GroupStat (String × String)) :=
  let filtered := yearFilter year df
  let stats := aggPlayMinutes pairLtB trackArtistKey filtered
  (sortDescBy (metricOf byStr) stats).take limit

/-! ## Heatmap -/

/-- The pivoted heatmap: `rows`/`cols` are the ascending distinct
`day_of_week`/`hour` values occurring in the frame (a pandas `pivot`
creates axes only from observed values), and `fillna(0)` makes a cell
whose `(day, hour)` combination never occurs hold `0`. -/
structure Heatmap where
  rows : List Nat
  cols : List Nat
  values : List (List Nat)
deriving DecidableEq

/-- `get_heatmap_data`: `groupby(["day_of_week", "hour"]).size()`, pivoted
to `day_of_week × hour`, `fillna(0)`. -/
def get_heatmap_data (df : List Event) : Heatmap :=
  let days := sortAsc natLtB ((df.map (·.day_of_week)).dedup)
  let hours := sortAsc natLtB ((df.map (·.hour)).dedup)
  { rows := days
    cols := hours
    values := days.map (fun d => hours.map (fun h =>
      df.countP (fun e => decide (e.day_of_week = d) && decide (e.hour = h)))) }

/-- Total of all heatmap cells. -/
def heatmapTotal (hm : Heatmap) : Nat := (hm.values.map List.sum).sum

/-! ## Search -/

/-- `series.str.lower().str.contains(pat, na=False)`: `NaN` rows are
`False`; otherwise the (already lowercased) regex pattern is searched in
the lowercased value. -/
def containsRe (pat : List RTok) : Option String → Bool
  | none => false
  | some s => reSearch pat (lowerChs s)

/-- The row mask of `search_tracks`: query against track, artist or album. -/
def searchTrackMask (pat : List RTok) (e : Event) : Bool :=
  containsRe pat e.track || containsRe pat e.artist || containsRe pat e.album

/-- The row mask of `search_artists`: query against artist. -/
def searchArtistMask (pat : List RTok) (e : Event) : Bool :=
  containsRe pat e.artist

structure TrackSearchStat where
  track : String
  artist : String
  album : String
  play_count : Nat
  total_minutes : ℚ
  first_played : Nat
  last_played : Nat
deriving DecidableEq

/-- `search_tracks`: filter by the mask (query lowercased, then used as a
regex pattern), return an empty frame if nothing matched, otherwise group
by `(track, artist, album)`, aggregate, sort by play count descending,
truncate. -/
def search_tracks (df : List Event) (query : String) (limit : Nat) :
    List TrackSearchStat :=
  let pat := reToks (lowerChs query)
  let matched := df.filter (searchTrackMask pat)
  if matched.isEmpty then [] else
  let stats := (groupKeys tripleLtB trackArtistAlbumKey matched).map (fun k =>
    let g := groupRows trackArtistAlbumKey k matched
    { track := k.1
      artist := k.2.1
      album := k.2.2
      play_count := g.length
      total_minutes := (g.map Event.minutes_played).sum
      first_played := ((g.map (fun e => e.ts.ord)).min?).getD 0
      last_played := ((g.map (fun e => e.ts.ord)).max?).getD 0 })
  (sortDescBy (fun s => s.play_count) stats).take limit

structure ArtistSearchStat where
  artist : String
  play_count : Nat
  total_minutes : ℚ
  unique_tracks : Nat
  first_played : Nat
  last_played : Nat
deriving DecidableEq

/-- `search_artists`: filter by the artist mask, empty frame if nothing
matched, otherwise group by artist, aggregate (including `nunique` of
track, which ignores nulls), sort by play count descending, truncate. -/
def search_artists (df : List Event) (query : String) (limit : Nat) :
    List ArtistSearchStat :=
  let pat := reToks (lowerChs query)
  let matched := df.filter (searchArtistMask pat)
  if matched.isEmpty then [] else
  let stats := (groupKeys strLt artistKey matched).map (fun a =>
    let g := groupRows artistKey a matched
    { artist := a
      play_count := g.length
      total_minutes := (g.map Event.minutes_played).sum
      unique_tracks := ((g.filterMap (·.track)).dedup).length
      first_played := ((g.map (fun e => e.ts.ord)).min?).getD 0
      last_played := ((g.map (fun e => e.ts.ord)).max?).getD 0 })
  (sortDescBy (fun s => s.play_count) stats).take limit

/-! ## One-hit wonders -/

/-- `set(zip(playlist_tracks["track"], playlist_tracks["artist"]))` (the
empty frame gives the empty set). -/
def playlistPairSet (pdf : List PlaylistRow) :
    Finset (Option String × Option String) :=
  (pdf.map (fun r => (r.track, r.artist))).toFinset

/-- One aggregated row of `get_one_hit_wonders`: the source groups by
`(track, artist, album)` and aggregates count, first timestamp and summed
`ms_played`. -/
structure OneHitRow where
  track : String
  artist : String
  album : String
  play_count : Nat
  played_on : Nat
  ms_played : Nat
deriving DecidableEq

/-- The `track_counts` frame of `get_one_hit_wonders`: aggregate per
`(track, artist, album)` — count, first timestamp, summed `ms_played`. -/
def tripleAggs (df : List Event) : List OneHitRow :=
  (groupKeys tripleLtB trackArtistAlbumKey df).map (fun k =>
    let g := groupRows trackArtistAlbumKey k df
    { track := k.1
      artist := k.2.1
      album := k.2.2
      play_count := g.length
      played_on := ((g.map (fun e => e.ts.ord)).head?).getD 0
      ms_played := (g.map (·.ms_played)).sum })

/-- The `one_hits` frame of `get_one_hit_wonders` before sorting and
truncation: exactly one play, at least 120000 summed `ms_played`, and not
on any playlist. -/
def oneHitTableRows (df : List Event) (pdf : List PlaylistRow) :
    List OneHitRow :=
  ((tripleAggs df).filter (fun r =>
      decide (r.play_count = 1) && decide (120000 ≤ r.ms_played))).filter
    (fun r => !decide ((some r.track, some r.artist) ∈ playlistPairSet pdf))

/-- `get_one_hit_wonders`: the qualifying rows sorted by `played_on`
descending and truncated. -/
def get_one_hit_wonders (df : List Event) (pdf : List PlaylistRow)
    (limit : Nat) : List OneHitRow :=
  (sortDescBy (fun r => r.played_on) (oneHitTableRows df pdf)).take limit

/-- One aggregated row of `get_one_hit_wonder_stats` (grouped by
`(track, artist)` only). -/
structure PairStat where
  track : String
  artist : String
  play_count : Nat
  ms_played : Nat
deriving DecidableEq

def pairAggs (df : List Event) : List PairStat :=
  (groupKeys pairLtB trackArtistKey df).map (fun k =>
    let g := groupRows trackArtistKey k df
    { track := k.1
      artist := k.2
      play_count := g.length
      ms_played := (g.map (·.ms_played)).sum })

/-- The `track_counts` frame of `get_one_hit_wonder_stats` after the
`ms_played >= 120000` filter. -/
def qualifyingPairs (df : List Event) : List PairStat :=
  (pairAggs df).filter (fun r => decide (120000 ≤ r.ms_played))

/-- The `one_hits` frame of `get_one_hit_wonder_stats`: played exactly once
and not on any playlist. -/
def oneHitStatsRows (df : List Event) (pdf : List PlaylistRow) : List PairStat :=
  (qualifyingPairs df).filter (fun r =>
    decide (r.play_count = 1) && !decide ((some r.track, some r.artist) ∈ playlistPairSet pdf))

/-- `get_one_hit_wonder_stats`, as `(total_unique_tracks, one_hit_count)`.
The percentage field of the source is determined by these two numbers
(float rounding of their ratio) and is not modelled. -/
def get_one_hit_wonder_stats (df : List Event) (pdf : List PlaylistRow) :
    Nat × Nat :=
  ((qualifyingPairs df).length, (oneHitStatsRows df pdf).length)

/-! ## Playlist overlap -/

/-- The result of `get_playlist_overlap`; the shared artists/tracks are
Python `set`s, modelled as finite sets. -/
structure PlaylistOverlap where
  playlist1 : String
  playlist2 : String
  p1_track_count : Nat
  p2_track_count : Nat
  p1_artist_count : Nat
  p2_artist_count : Nat
  shared_artists : Finset (Option String)
  shared_tracks : Finset (Option String × Option String)
deriving DecidableEq

/-- `get_playlist_overlap`: `{}` on an empty frame, otherwise artist-set
and `(track, artist)`-pair-set intersections of the two playlists. -/
def get_playlist_overlap (df : List PlaylistRow) (playlist1 playlist2 : String) :
    Option PlaylistOverlap :=
  if df.isEmpty then none else
  let p1 := df.filter (fun r => decide (r.playlist = playlist1))
  let p2 := df.filter (fun r => decide (r.playlist = playlist2))
  let p1_artists := (p1.map (·.artist)).toFinset
  let p2_artists := (p2.map (·.artist)).toFinset
  let p1_tracks := (p1.map (fun r => (r.track, r.artist))).toFinset
  let p2_tracks := (p2.map (fun r => (r.track, r.artist))).toFinset
  some
    { playlist1 := playlist1
      playlist2 := playlist2
      p1_track_count := p1.length
      p2_track_count := p2.length
      p1_artist_count := p1_artists.card
      p2_artist_count := p2_artists.card
      shared_artists := p1_artists ∩ p2_artists
      shared_tracks := p1_tracks ∩ p2_tracks }

/-! ## Genre enrichment service (`src/spotify_api.py`)

Network responses are supplied by an oracle mapping (batch index, attempt
index) to a parsed outcome.  `ok items` is a 200 response whose JSON
payload parsed to `items` (`none` entries are the `null` objects the
source skips with `if artist:` / `if track:`); `rateLimited ra` is an
HTTP 429 carrying an optional integer `Retry-After` header; `failed` is
any other failure (exception during the request, or a non-2xx status that
makes `raise_for_status` throw). -/

inductive ApiResp (ε : Type) where
  | ok (items : List (Option ε))
  | rateLimited (retryAfter : Option Nat)
  | failed
deriving DecidableEq

/-- Observable state of one batched fetch run: the accumulated results
dict, the log of issued HTTP requests (batch index, attempt index, batch
ids), the rate-limit sleeps (seconds), the count of fixed inter-batch
delays, and the sequence of batches iterated. -/
structure FetchSt (α : Type) where
  results : List (String × α) := []
  requests : List (Nat × Nat × List String) := []
  retry_sleeps : List Nat := []
  inter_delays : Nat := 0
  batches : List (List String) := []
deriving DecidableEq

/-- One iteration of the batch loop shared by `fetch_artists_genres` and
`fetch_track_artists`: issue the request; on 429 sleep
`int(headers.get("Retry-After", 5))` seconds and retry the same batch
exactly once; a (still-)failing response makes `raise_for_status` throw,
which the `except` swallows, skipping the batch; an `ok` payload is folded
into the results dict entry by entry (`results[id] = value`), skipping
`null` items. -/
def stepBatch {α : Type} (oracle : Nat → Nat → ApiResp (String × α)) (k : Nat)
    (b : List String) (st : FetchSt α) : FetchSt α :=
  match oracle k 0 with
  | ApiResp.ok items =>
      { st with
        results := dictUpdateMany st.results (items.filterMap id)
        requests := st.requests ++ [(k, 0, b)]
        batches := st.batches ++ [b] }
  | ApiResp.failed =>
      { st with
        requests := st.requests ++ [(k, 0, b)]
        batches := st.batches ++ [b] }
  | ApiResp.rateLimited ra =>
      let st1 := { st with
        requests := st.requests ++ [(k, 0, b)]
        retry_sleeps := st.retry_sleeps ++ [ra.getD 5]
        batches := st.batches ++ [b] }
      match oracle k 1 with
      | ApiResp.ok items =>
          { st1 with
            results := dictUpdateMany st1.results (items.filterMap id)
            requests := st1.requests ++ [(k, 1, b)] }
      | _ => { st1 with requests := st1.requests ++ [(k, 1, b)] }

/-- The loop `for i in range(0, len(unique_ids), 50)`, including the fixed
0.1-second delay after every batch but the last
(`if i + 50 < len(unique_ids)`). -/
def loopBatches {α : Type} (oracle : Nat → Nat → ApiResp (String × α)) :
    Nat → List (List String) → FetchSt α → FetchSt α
  | _, [], st => st
  | k, b :: bs, st =>
    let st1 := stepBatch oracle k b st
    let st2 := if bs.isEmpty then st1
      else { st1 with inter_delays := st1.inter_delays + 1 }
    loopBatches oracle (k + 1) bs st2

/-- `list(set(i for i in ids if i))`: deduplicated non-empty identifiers. -/
def uniqueIds (ids : List String) : List String :=
  (ids.filter (fun s => !decide (s = ""))).dedup

/-- The batched fetch shared verbatim by `fetch_artists_genres` and
`fetch_track_artists`: empty result on an empty id list or missing token,
otherwise the batch loop over chunks of 50 deduplicated ids. -/
def fetchBatched {α : Type} (ids : List String) (token : String)
    (oracle : Nat → Nat → ApiResp (String × α)) : FetchSt α :=
  if ids.isEmpty || decide (token = "") then {} else
  loopBatches oracle 0 (chunks50 (uniqueIds ids)) {}

/-- `fetch_artists_genres`: per-artist genre lists. -/
def fetch_artists_genres (artist_ids : List String) (token : String)
    (oracle : Nat → Nat → ApiResp (String × List String)) :
    FetchSt (List String) :=
  fetchBatched artist_ids token oracle

/-- `fetch_track_artists`: per-track `(artist id, artist name)` lists. -/
def fetch_track_artists (track_ids : List String) (token : String)
    (oracle : Nat → Nat → ApiResp (String × List (String × String))) :
    FetchSt (List (String × String)) :=
  fetchBatched track_ids token oracle

/-- `extract_track_id`: the last `:`-separated segment of a
`spotify:track:...` URI, else `None`. -/
def extract_track_id : Option String → Option String
  | none => none
  | some uri =>
    if chsStarts "spotify:track:".data uri.data then
      some (String.mk ((splitChs ':' uri.data).getLastD []))
    else none

/-- Environment of the service: whether `requests` imported, the two
credential environment variables, the (unexpired) cached token if any, and
the outcome of a client-credentials token request (`none` = the request
fails); plus the response oracles of the two batch endpoints. -/
structure ApiWorld where
  requests_available : Bool
  client_id : Option String
  client_secret : Option String
  cached_token : Option String
  token_request : Option String
  track_oracle : Nat → Nat → ApiResp (String × List (String × String))
  artist_oracle : Nat → Nat → ApiResp (String × List String)

/-- Python truthiness of `os.environ.get(...)`. -/
def truthy : Option String → Bool
  | none => false
  | some s => !decide (s = "")

/-- `is_api_available`: `requests` importable and both credentials set. -/
def is_api_available (w : ApiWorld) : Bool :=
  w.requests_available && truthy w.client_id && truthy w.client_secret

/-- `get_access_token`, paired with whether a network token request was
made: unavailable → `None` without network; valid cached token → cached;
otherwise one client-credentials request that either yields a token or
fails to `None`. -/
def get_access_token (w : ApiWorld) : Option String × Bool :=
  if !is_api_available w then (none, false)
  else
    match w.cached_token with
    | some t => (some t, false)
    | none =>
      match w.token_request with
      | some t => (some t, true)
      | none => (none, true)

/-- Observable outcome of `enrich_with_genres`: the returned mapping, the
cache written to disk (`none` = no write), and whether any network access
happened. -/
structure EnrichResult where
  returned : List (String × List String)
  saved : Option (List (String × List String))
  network_used : Bool

/-- `enrich_with_genres`.  `cache` is the genre cache loaded from disk.
Branches in source order: non-empty cache without `force_refresh` is
returned as is; unavailable API or failed token acquisition returns the
cache unchanged; with a streaming frame, track ids are parsed from the
distinct `spotify_track_uri` values (capped at 1000), their artists
fetched, the distinct artist ids' genres fetched, a name → genres mapping
built, merged into the cache, persisted and returned; without a streaming
frame the cache is returned unchanged. -/
def enrich_with_genres (w : ApiWorld) (cache : List (String × List String))
    (artist_names : List String) (streaming_df : Option (List Event))
    (force_refresh : Bool) : EnrichResult :=
  if !cache.isEmpty && !force_refresh then
    { returned := cache, saved := none, network_used := false }
  else if !is_api_available w then
    { returned := cache, saved := none, network_used := false }
  else
    match (get_access_token w).1 with
    | none =>
      { returned := cache, saved := none, network_used := (get_access_token w).2 }
    | some token =>
      match streaming_df with
      | none =>
        { returned := cache, saved := none, network_used := (get_access_token w).2 }
      | some df =>
        let track_uris := dedupFirst [] (df.filterMap (·.spotify_track_uri))
        let track_ids := (track_uris.filterMap (fun u => extract_track_id (some u))).filter
          (fun t => !decide (t = ""))
        let track_ids := track_ids.take 1000
        let ta := fetch_track_artists track_ids token w.track_oracle
        let artist_pairs := (ta.results.map (·.2)).flatten
        let artist_ids := (artist_pairs.map (·.1)).dedup
        let artist_id_to_name := dictUpdateMany [] artist_pairs
        let ag := fetch_artists_genres artist_ids token w.artist_oracle
        let result := ag.results.foldl (fun acc p =>
          match dictLookup artist_id_to_name p.1 with
          | some name => if name = "" then acc else dictInsert acc name p.2
          | none => acc) []
        let new_cache := dictUpdateMany cache result
        { returned := new_cache
          saved := some new_cache
          network_used := (get_access_token w).2 || !ta.requests.isEmpty ||
            !ag.requests.isEmpty }

/-! ## Per-batch characterisation of the fetch loop -/

/-- The requests a single batch gives rise to: two attempts after a 429,
otherwise one. -/
def batchReqs {α : Type} (oracle : Nat → Nat → ApiResp (String × α)) (k : Nat)
    (b : List String) : List (Nat × Nat × List String) :=
  match oracle k 0 with
  | ApiResp.rateLimited _ => [(k, 0, b), (k, 1, b)]
  | _ => [(k, 0, b)]

/-- The rate-limit sleeps of a single batch: `Retry-After` (default 5)
seconds after a 429, otherwise none. -/
def batchSleeps {α : Type} (oracle : Nat → Nat → ApiResp (String × α))
    (k : Nat) : List Nat :=
  match oracle k 0 with
  | ApiResp.rateLimited ra => [ra.getD 5]
  | _ => []

/-- The response payload a batch effectively contributes: the first
attempt if it succeeded, the retry if the first was a 429, nothing on
failure. -/
def effectiveItems {α : Type} (oracle : Nat → Nat → ApiResp (String × α))
    (k : Nat) : List (Option (String × α)) :=
  match oracle k 0 with
  | ApiResp.ok items => items
  | ApiResp.failed => []
  | ApiResp.rateLimited _ =>
    match oracle k 1 with
    | ApiResp.ok items => items
    | _ => []

def batchEntries {α : Type} (oracle : Nat → Nat → ApiResp (String × α))
    (k : Nat) : List (String × α) :=
  (effectiveItems oracle k).filterMap id

def runReqs {α : Type} (oracle : Nat → Nat → ApiResp (String × α)) :
    Nat → List (List String) → List (Nat × Nat × List String)
  | _, [] => []
  | k, b :: bs => batchReqs oracle k b ++ runReqs oracle (k + 1) bs

def runSleeps {α : Type} (oracle : Nat → Nat → ApiResp (String × α)) :
    Nat → List (List String) → List Nat
  | _, [] => []
  | k, _ :: bs => batchSleeps oracle k ++ runSleeps oracle (k + 1) bs

def runEntries {α : Type} (oracle : Nat → Nat → ApiResp (String × α)) :
    Nat → List (List String) → List (String × α)
  | _, [] => []
  | k, _ :: bs => batchEntries oracle k ++ runEntries oracle (k + 1) bs

theorem stepBatch_batches {α : Type} (oracle : Nat → Nat → ApiResp (String × α))
    (k : Nat) (b : List String) (st : FetchSt α) :
    (stepBatch oracle k b st).batches = st.batches ++ [b] := by
  rcases h0 : oracle k 0 with items | ra | _
  · simp [stepBatch, h0]
  · rcases h1 : oracle k 1 with items | ra1 | _ <;> simp [stepBatch, h0, h1]
  · simp [stepBatch, h0]

theorem stepBatch_requests {α : Type} (oracle : Nat → Nat → ApiResp (String × α))
    (k : Nat) (b : List String) (st : FetchSt α) :
    (stepBatch oracle k b st).requests = st.requests ++ batchReqs oracle k b := by
  rcases h0 : oracle k 0 with items | ra | _
  · simp [stepBatch, batchReqs, h0]
  · rcases h1 : oracle k 1 with items | ra1 | _ <;>
      simp [stepBatch, batchReqs, h0, h1]
  · simp [stepBatch, batchReqs, h0]

theorem stepBatch_retry_sleeps {α : Type}
    (oracle : Nat → Nat → ApiResp (String × α)) (k : Nat) (b : List String)
    (st : FetchSt α) :
    (stepBatch oracle k b st).retry_sleeps = st.retry_sleeps ++ batchSleeps oracle k := by
  rcases h0 : oracle k 0 with items | ra | _
  · simp [stepBatch, batchSleeps, h0]
  · rcases h1 : oracle k 1 with items | ra1 | _ <;>
      simp [stepBatch, batchSleeps, h0, h1]
  · simp [stepBatch, batchSleeps, h0]

theorem stepBatch_results {α : Type} (oracle : Nat → Nat → ApiResp (String × α))
    (k : Nat) (b : List String) (st : FetchSt α) :
    (stepBatch oracle k b st).results =
      dictUpdateMany st.results (batchEntries oracle k) := by
  rcases h0 : oracle k 0 with items | ra | _
  · simp [stepBatch, batchEntries, effectiveItems, h0]
  · rcases h1 : oracle k 1 with items | ra1 | _ <;>
      simp [stepBatch, batchEntries, effectiveItems, h0, h1, dictUpdateMany]
  · simp [stepBatch, batchEntries, effectiveItems, h0, dictUpdateMany]

theorem loopBatches_batches {α : Type}
    (oracle : Nat → Nat → ApiResp (String × α)) (bs : List (List String)) :
    ∀ (k : Nat) (st : FetchSt α),
    (loopBatches oracle k bs st).batches = st.batches ++ bs := by
  induction bs with
  | nil => intro k st; simp [loopBatches]
  | cons b bs ih =>
    intro k st
    show (loopBatches oracle (k + 1) bs _).batches = _
    rw [ih]
    by_cases hbs : bs.isEmpty <;>
      simp [hbs, stepBatch_batches]

theorem loopBatches_requests {α : Type}
    (oracle : Nat → Nat → ApiResp (String × α)) (bs : List (List String)) :
    ∀ (k : Nat) (st : FetchSt α),
    (loopBatches oracle k bs st).requests = st.requests ++ runReqs oracle k bs := by
  induction bs with
  | nil => intro k st; simp [loopBatches, runReqs]
  | cons b bs ih =>
    intro k st
    show (loopBatches oracle (k + 1) bs _).requests = _
    rw [ih]
    by_cases hbs : bs.isEmpty <;>
      simp [hbs, stepBatch_requests, runReqs]

theorem loopBatches_retry_sleeps {α : Type}
    (oracle : Nat → Nat → ApiResp (String × α)) (bs : List (List String)) :
    ∀ (k : Nat) (st : FetchSt α),
    (loopBatches oracle k bs st).retry_sleeps =
      st.retry_sleeps ++ runSleeps oracle k bs := by
  induction bs with
  | nil => intro k st; simp [loopBatches, runSleeps]
  | cons b bs ih =>
    intro k st
    show (loopBatches oracle (k + 1) bs _).retry_sleeps = _
    rw [ih]
    by_cases hbs : bs.isEmpty <;>
      simp [hbs, stepBatch_retry_sleeps, runSleeps]

theorem loopBatches_results {α : Type}
    (oracle : Nat → Nat → ApiResp (String × α)) (bs : List (List String)) :
    ∀ (k : Nat) (st : FetchSt α),
    (loopBatches oracle k bs st).results =
      dictUpdateMany st.results (runEntries oracle k bs) := by
  induction bs with
  | nil => intro k st; simp [loopBatches, runEntries, dictUpdateMany]
  | cons b bs ih =>
    intro k st
    show (loopBatches oracle (k + 1) bs _).results = _
    rw [ih]
    by_cases hbs : bs.isEmpty <;>
      simp [hbs, stepBatch_results, runEntries, dictUpdateMany_append]

theorem batchReqs_index {α : Type} (oracle : Nat → Nat → ApiResp (String × α))
    (k : Nat) (b : List String) (r : Nat × Nat × List String)
    (hr : r ∈ batchReqs oracle k b) : r.1 = k := by
  unfold batchReqs at hr
  rcases h0 : oracle k 0 with items | ra | _ <;> rw [h0] at hr <;> simp at hr
  · subst hr; rfl
  · rcases hr with rfl | rfl <;> rfl
  · subst hr; rfl

theorem runReqs_index_ge {α : Type} (oracle : Nat → Nat → ApiResp (String × α)) :
    ∀ (bs : List (List String)) (k : Nat) (r : Nat × Nat × List String),
    r ∈ runReqs oracle k bs → k ≤ r.1 := by
  intro bs
  induction bs with
  | nil => intro k r hr; simp [runReqs] at hr
  | cons b bs ih =>
    intro k r hr
    rcases List.mem_append.mp hr with hr | hr
    · exact le_of_eq (batchReqs_index oracle k b r hr).symm
    · exact le_trans (Nat.le_succ k) (ih (k + 1) r hr)

theorem filter_runReqs {α : Type} (oracle : Nat → Nat → ApiResp (String × α)) :
    ∀ (bs : List (List String)) (k j : Nat) (hj : j < bs.length),
    (runReqs oracle k bs).filter (fun r => decide (r.1 = k + j)) =
      batchReqs oracle (k + j) (bs.get ⟨j, hj⟩) := by
  intro bs
  induction bs with
  | nil => intro k j hj; cases hj
  | cons b bs ih =>
    intro k j hj
    show (batchReqs oracle k b ++ runReqs oracle (k + 1) bs).filter _ = _
    rw [List.filter_append]
    cases j with
    | zero =>
      have h1 : (batchReqs oracle k b).filter (fun r => decide (r.1 = k + 0)) =
          batchReqs oracle k b := by
        apply List.filter_eq_self.mpr
        intro r hr
        simp [batchReqs_index oracle k b r hr]
      have h2 : (runReqs oracle (k + 1) bs).filter
          (fun r => decide (r.1 = k + 0)) = [] := by
        apply List.filter_eq_nil_iff.mpr
        intro r hr
        have := runReqs_index_ge oracle bs (k + 1) r hr
        simp only [decide_eq_true_eq]
        omega
      rw [h1, h2, List.append_nil]
      rfl
    | succ j' =>
      have h1 : (batchReqs oracle k b).filter
          (fun r => decide (r.1 = k + (j' + 1))) = [] := by
        apply List.filter_eq_nil_iff.mpr
        intro r hr
        have := batchReqs_index oracle k b r hr
        simp only [decide_eq_true_eq]
        omega
      have h2 := ih (k + 1) j' (by simpa using Nat.lt_of_succ_lt_succ hj)
      rw [h1, List.nil_append]
      have harith : k + 1 + j' = k + (j' + 1) := by omega
      rw [harith] at h2
      rw [h2]
      rfl

theorem runSleeps_mem {α : Type} (oracle : Nat → Nat → ApiResp (String × α)) :
    ∀ (bs : List (List String)) (k j : Nat), j < bs.length →
    ∀ x ∈ batchSleeps oracle (k + j), x ∈ runSleeps oracle k bs := by
  intro bs
  induction bs with
  | nil => intro k j hj; cases hj
  | cons b bs ih =>
    intro k j hj x hx
    show x ∈ batchSleeps oracle k ++ runSleeps oracle (k + 1) bs
    rw [List.mem_append]
    cases j with
    | zero => exact Or.inl (by simpa using hx)
    | succ j' =>
      right
      have harith : k + 1 + j' = k + (j' + 1) := by omega
      exact ih (k + 1) j' (by simpa using Nat.lt_of_succ_lt_succ hj)
        x (harith ▸ hx)

/-! ## Generic fetch-run specification (shared by C7 and C8) -/

theorem fetchBatched_batches_eq {α : Type} (ids : List String) (token : String)
    (oracle : Nat → Nat → ApiResp (String × α)) (hids : ids ≠ [])
    (htok : token ≠ "") :
    (fetchBatched ids token oracle).batches = chunks50 (uniqueIds ids) := by
  unfold fetchBatched
  have h1 : ids.isEmpty = false := by
    cases ids with
    | nil => exact absurd rfl hids
    | cons a l => rfl
  have h2 : decide (token = "") = false := by
    simpa using htok
  rw [h1, h2]
  simp only [Bool.or_self, Bool.false_eq_true, if_false]
  rw [loopBatches_batches]
  rfl

theorem fetchBatched_spec {α : Type} (ids : List String) (token : String)
    (oracle : Nat → Nat → ApiResp (String × α)) :
    (∀ (k : Nat) (hk : k < (fetchBatched ids token oracle).batches.length),
      (∀ ra, oracle k 0 = ApiResp.rateLimited ra →
        (fetchBatched ids token oracle).requests.filter
            (fun r => decide (r.1 = k)) =
          [(k, 0, (fetchBatched ids token oracle).batches.get ⟨k, hk⟩),
           (k, 1, (fetchBatched ids token oracle).batches.get ⟨k, hk⟩)] ∧
        ra.getD 5 ∈ (fetchBatched ids token oracle).retry_sleeps) ∧
      ((∀ ra, oracle k 0 ≠ ApiResp.rateLimited ra) →
        (fetchBatched ids token oracle).requests.filter
            (fun r => decide (r.1 = k)) =
          [(k, 0, (fetchBatched ids token oracle).batches.get ⟨k, hk⟩)])) ∧
    (fetchBatched ids token oracle).results =
      dictUpdateMany [] (runEntries oracle 0 (fetchBatched ids token oracle).batches) := by
  by_cases hguard : (ids.isEmpty || decide (token = "")) = true
  · constructor
    · intro k hk
      rw [fetchBatched, if_pos hguard] at hk
      cases hk
    · rw [fetchBatched, if_pos hguard]
      rfl
  · have hbody : fetchBatched ids token oracle =
        loopBatches oracle 0 (chunks50 (uniqueIds ids)) {} := by
      rw [fetchBatched, if_neg hguard]
    have hbat : (fetchBatched ids token oracle).batches =
        chunks50 (uniqueIds ids) := by
      rw [hbody, loopBatches_batches]
      rfl
    have hreq : (fetchBatched ids token oracle).requests =
        runReqs oracle 0 (chunks50 (uniqueIds ids)) := by
      rw [hbody, loopBatches_requests]
      rfl
    have hslp : (fetchBatched ids token oracle).retry_sleeps =
        runSleeps oracle 0 (chunks50 (uniqueIds ids)) := by
      rw [hbody, loopBatches_retry_sleeps]
      rfl
    constructor
    · intro k hk
      have hk2 : k < (chunks50 (uniqueIds ids)).length := by
        rw [← hbat]
        exact hk
      have hget : (fetchBatched ids token oracle).batches.get ⟨k, hk⟩ =
          (chunks50 (uniqueIds ids)).get ⟨k, hk2⟩ := List.get_of_eq hbat ⟨k, hk⟩
      have hfilter := filter_runReqs oracle (chunks50 (uniqueIds ids)) 0 k hk2
      simp only [Nat.zero_add] at hfilter
      constructor
      · intro ra hra
        constructor
        · rw [hreq, hfilter, hget]
          unfold batchReqs
          rw [hra]
        · rw [hslp]
          have hmem : ra.getD 5 ∈ batchSleeps oracle (0 + k) := by
            unfold batchSleeps
            rw [Nat.zero_add, hra]
            exact List.mem_singleton.mpr rfl
          exact runSleeps_mem oracle (chunks50 (uniqueIds ids)) 0 k hk2 _ hmem
      · intro hra
        rw [hreq, hfilter, hget]
        unfold batchReqs
        rcases h0 : oracle k 0 with items | ra | _
        · rfl
        · exact absurd h0 (hra ra)
        · rfl
    · rw [hbat, hbody, loopBatches_results]

/-! ## Claim theorems -/

/-- C5: for every PlaylistEntry table and every pair of playlist names
`a`, `b`, the shared-artist set and the shared exact (track, artist)
pair set of `overlap(a, b)` equal those of `overlap(b, a)`; only the
labelling of the per-playlist counts depends on the argument order. -/
theorem C5_overlap_symmetric (df : List PlaylistRow) (a b : String) :
    (get_playlist_overlap df a b).map
        (fun o => (o.shared_artists, o.shared_tracks)) =
      (get_playlist_overlap df b a).map
        (fun o => (o.shared_artists, o.shared_tracks)) := by
  by_cases h : df.isEmpty
  · simp [get_playlist_overlap, h]
  · simp [get_playlist_overlap, h, Finset.inter_comm]

/-- C9: every event retained by `preprocess_data`'s music-only filter has
a present (non-null) `track` and absent `episode_name` and
`audiobook_title`. -/
theorem C9_music_only_invariant (df : List RawEvent) (e : Event)
    (he : e ∈ preprocess_data df) :
    e.track.isSome = true ∧ e.episode_name = none ∧ e.audiobook_title = none := by
  rcases List.mem_filter.mp he with ⟨-, hcond⟩
  simp only [Bool.and_eq_true, Option.isNone_iff_eq_none] at hcond
  exact ⟨hcond.1.1, hcond.1.2, hcond.2⟩

/-- A sample raw record used to witness C9. -/
def rawSample : RawEvent :=
  { ts := ⟨0, 2023, 1, 1, 0, 0⟩
    ms_played := 150000
    master_metadata_track_name := some "T"
    master_metadata_album_artist_name := some "A"
    master_metadata_album_album_name := some "X"
    episode_name := none
    audiobook_title := none
    skipped := false
    platform := some "ios"
    spotify_track_uri := none }

theorem C9_music_only_invariant_witness :
    (toEvent rawSample).track.isSome = true ∧
    (toEvent rawSample).episode_name = none ∧
    (toEvent rawSample).audiobook_title = none :=
  C9_music_only_invariant [rawSample] (toEvent rawSample) (by decide)

/-- C10: `enrich_with_genres` does not depend on its `artist_names`
argument at all — the parameter is never read, so two calls differing
only in it return identical results and identical persisted caches. -/
theorem C10_enrich_ignores_artist_names (w : ApiWorld)
    (cache : List (String × List String)) (names₁ names₂ : List String)
    (streaming_df : Option (List Event)) (force_refresh : Bool) :
    enrich_with_genres w cache names₁ streaming_df force_refresh =
      enrich_with_genres w cache names₂ streaming_df force_refresh := rfl

/-- C6: with a non-empty on-disk cache and `force_refresh = false`,
`enrich_with_genres` returns the cache unmodified with no network access
and no cache write; and whenever the API is unavailable or token
acquisition fails, it returns the existing cache unchanged without
writing (the model is a total function, so no exception escapes). -/
theorem C6_enrich_cache_and_degradation (w : ApiWorld)
    (cache : List (String × List String)) (names : List String)
    (streaming_df : Option (List Event)) (force_refresh : Bool) :
    (cache ≠ [] → force_refresh = false →
      enrich_with_genres w cache names streaming_df force_refresh =
        { returned := cache, saved := none, network_used := false }) ∧
    ((is_api_available w = false ∨ (get_access_token w).1 = none) →
      (enrich_with_genres w cache names streaming_df force_refresh).returned =
        cache ∧
      (enrich_with_genres w cache names streaming_df force_refresh).saved =
        none) := by
  constructor
  · intro hc hf
    have hcond : (!cache.isEmpty && !force_refresh) = true := by
      subst hf
      simp [List.isEmpty_iff, hc]
    rw [enrich_with_genres, if_pos hcond]
  · intro h
    by_cases hcond : (!cache.isEmpty && !force_refresh) = true
    · rw [enrich_with_genres, if_pos hcond]
      exact ⟨rfl, rfl⟩
    · rcases h with hunav | htok
      · have hcond2 : (!is_api_available w) = true := by
          simp [hunav]
        rw [enrich_with_genres, if_neg hcond, if_pos hcond2]
        exact ⟨rfl, rfl⟩
      · by_cases hunav : (!is_api_available w) = true
        · rw [enrich_with_genres, if_neg hcond, if_pos hunav]
          exact ⟨rfl, rfl⟩
        · rw [enrich_with_genres, if_neg hcond, if_neg hunav, htok]
          exact ⟨rfl, rfl⟩

/-- A fully unconfigured service environment used to witness C6. -/
def worldSample : ApiWorld :=
  { requests_available := false
    client_id := none
    client_secret := none
    cached_token := none
    token_request := none
    track_oracle := fun _ _ => ApiResp.failed
    artist_oracle := fun _ _ => ApiResp.failed }

theorem C6_enrich_cache_and_degradation_witness :
    enrich_with_genres worldSample [("A", ["pop"])] [] none false =
      { returned := [("A", ["pop"])], saved := none, network_used := false } ∧
    (enrich_with_genres worldSample [] [] none false).returned = [] ∧
    (enrich_with_genres worldSample [] [] none false).saved = none :=
  ⟨(C6_enrich_cache_and_degradation worldSample [("A", ["pop"])] [] none
      false).1 (by decide) rfl,
    (C6_enrich_cache_and_degradation worldSample [] [] none false).2
      (Or.inl (by decide))⟩

/-- C7: for identifier lists whose deduplicated non-empty portion has
size `n > 0`, both batch fetch operations iterate exactly `⌈n / 50⌉`
batches, each of at most 50 identifiers. -/
theorem C7_batch_count (ids : List String) (token : String)
    (oa : Nat → Nat → ApiResp (String × List String))
    (ot : Nat → Nat → ApiResp (String × List (String × String)))
    (htok : token ≠ "") (hn : 0 < (uniqueIds ids).length) :
    ((fetch_artists_genres ids token oa).batches.length =
        ((uniqueIds ids).length + 49) / 50 ∧
      ∀ b ∈ (fetch_artists_genres ids token oa).batches, b.length ≤ 50) ∧
    ((fetch_track_artists ids token ot).batches.length =
        ((uniqueIds ids).length + 49) / 50 ∧
      ∀ b ∈ (fetch_track_artists ids token ot).batches, b.length ≤ 50) := by
  have hids : ids ≠ [] := by
    intro h
    subst h
    simp [uniqueIds] at hn
  constructor
  · rw [fetch_artists_genres, fetchBatched_batches_eq ids token oa hids htok]
    exact ⟨chunks50_length _, fun b hb => chunks50_mem_length _ b hb⟩
  · rw [fetch_track_artists, fetchBatched_batches_eq ids token ot hids htok]
    exact ⟨chunks50_length _, fun b hb => chunks50_mem_length _ b hb⟩

theorem C7_batch_count_witness :
    ((fetch_artists_genres ["a"] "x" (fun _ _ => ApiResp.failed)).batches.length =
        ((uniqueIds ["a"]).length + 49) / 50 ∧
      ∀ b ∈ (fetch_artists_genres ["a"] "x"
        (fun _ _ => ApiResp.failed)).batches, b.length ≤ 50) ∧
    ((fetch_track_artists ["a"] "x" (fun _ _ => ApiResp.failed)).batches.length =
        ((uniqueIds ["a"]).length + 49) / 50 ∧
      ∀ b ∈ (fetch_track_artists ["a"] "x"
        (fun _ _ => ApiResp.failed)).batches, b.length ≤ 50) :=
  C7_batch_count ["a"] "x" _ _ (by decide) (by decide)

/-- C8: per batch of either fetch operation, a 429 first response leads
to a sleep of `Retry-After` (default 5) seconds and exactly one retry of
the same batch ids (two logged requests for that batch index, same id
list); any other first response gives exactly one request; and the
results dict is exactly the per-batch effective payloads folded together,
so a failed batch is skipped while every other batch's results are kept
(the run is a total function: it never raises). -/
theorem C8_rate_limit_retry_and_skip (ids : List String) (token : String)
    (oa : Nat → Nat → ApiResp (String × List String))
    (ot : Nat → Nat → ApiResp (String × List (String × String))) :
    ((∀ (k : Nat) (hk : k < (fetch_artists_genres ids token oa).batches.length),
      (∀ ra, oa k 0 = ApiResp.rateLimited ra →
        (fetch_artists_genres ids token oa).requests.filter
            (fun r => decide (r.1 = k)) =
          [(k, 0, (fetch_artists_genres ids token oa).batches.get ⟨k, hk⟩),
           (k, 1, (fetch_artists_genres ids token oa).batches.get ⟨k, hk⟩)] ∧
        ra.getD 5 ∈ (fetch_artists_genres ids token oa).retry_sleeps) ∧
      ((∀ ra, oa k 0 ≠ ApiResp.rateLimited ra) →
        (fetch_artists_genres ids token oa).requests.filter
            (fun r => decide (r.1 = k)) =
          [(k, 0, (fetch_artists_genres ids token oa).batches.get ⟨k, hk⟩)])) ∧
    (fetch_artists_genres ids token oa).results =
      dictUpdateMany [] (runEntries oa 0 (fetch_artists_genres ids token oa).batches)) ∧
    ((∀ (k : Nat) (hk : k < (fetch_track_artists ids token ot).batches.length),
      (∀ ra, ot k 0 = ApiResp.rateLimited ra →
        (fetch_track_artists ids token ot).requests.filter
            (fun r => decide (r.1 = k)) =
          [(k, 0, (fetch_track_artists ids token ot).batches.get ⟨k, hk⟩),
           (k, 1, (fetch_track_artists ids token ot).batches.get ⟨k, hk⟩)] ∧
        ra.getD 5 ∈ (fetch_track_artists ids token ot).retry_sleeps) ∧
      ((∀ ra, ot k 0 ≠ ApiResp.rateLimited ra) →
        (fetch_track_artists ids token ot).requests.filter
            (fun r => decide (r.1 = k)) =
          [(k, 0, (fetch_track_artists ids token ot).batches.get ⟨k, hk⟩)])) ∧
    (fetch_track_artists ids token ot).results =
      dictUpdateMany [] (runEntries ot 0 (fetch_track_artists ids token ot).batches)) :=
  ⟨fetchBatched_spec ids token oa, fetchBatched_spec ids token ot⟩

/-- A rate-limited-then-successful artist-endpoint oracle used to witness
C8. -/
def oracleSampleA : Nat → Nat → ApiResp (String × List String) :=
  fun _ attempt =>
    if attempt = 0 then ApiResp.rateLimited (some 2)
    else ApiResp.ok [some ("a", ["pop"])]

/-- The same shape of oracle for the track endpoint. -/
def oracleSampleT : Nat → Nat → ApiResp (String × List (String × String)) :=
  fun _ attempt =>
    if attempt = 0 then ApiResp.rateLimited (some 2)
    else ApiResp.ok [some ("a", [("id1", "Artist")])]

theorem C8_rate_limit_retry_and_skip_witness :
    ((∀ (k : Nat) (hk : k < (fetch_artists_genres ["a"] "x" oracleSampleA).batches.length),
      (∀ ra, oracleSampleA k 0 = ApiResp.rateLimited ra →
        (fetch_artists_genres ["a"] "x" oracleSampleA).requests.filter
            (fun r => decide (r.1 = k)) =
          [(k, 0, (fetch_artists_genres ["a"] "x" oracleSampleA).batches.get ⟨k, hk⟩),
           (k, 1, (fetch_artists_genres ["a"] "x" oracleSampleA).batches.get ⟨k, hk⟩)] ∧
        ra.getD 5 ∈ (fetch_artists_genres ["a"] "x" oracleSampleA).retry_sleeps) ∧
      ((∀ ra, oracleSampleA k 0 ≠ ApiResp.rateLimited ra) →
        (fetch_artists_genres ["a"] "x" oracleSampleA).requests.filter
            (fun r => decide (r.1 = k)) =
          [(k, 0, (fetch_artists_genres ["a"] "x" oracleSampleA).batches.get ⟨k, hk⟩)])) ∧
    (fetch_artists_genres ["a"] "x" oracleSampleA).results =
      dictUpdateMany []
        (runEntries oracleSampleA 0 (fetch_artists_genres ["a"] "x" oracleSampleA).batches)) ∧
    ((∀ (k : Nat) (hk : k < (fetch_track_artists ["a"] "x" oracleSampleT).batches.length),
      (∀ ra, oracleSampleT k 0 = ApiResp.rateLimited ra →
        (fetch_track_artists ["a"] "x" oracleSampleT).requests.filter
            (fun r => decide (r.1 = k)) =
          [(k, 0, (fetch_track_artists ["a"] "x" oracleSampleT).batches.get ⟨k, hk⟩),
           (k, 1, (fetch_track_artists ["a"] "x" oracleSampleT).batches.get ⟨k, hk⟩)] ∧
        ra.getD 5 ∈ (fetch_track_artists ["a"] "x" oracleSampleT).retry_sleeps) ∧
      ((∀ ra, oracleSampleT k 0 ≠ ApiResp.rateLimited ra) →
        (fetch_track_artists ["a"] "x" oracleSampleT).requests.filter
            (fun r => decide (r.1 = k)) =
          [(k, 0, (fetch_track_artists ["a"] "x" oracleSampleT).batches.get ⟨k, hk⟩)])) ∧
    (fetch_track_artists ["a"] "x" oracleSampleT).results =
      dictUpdateMany []
        (runEntries oracleSampleT 0 (fetch_track_artists ["a"] "x" oracleSampleT).batches)) :=
  C8_rate_limit_retry_and_skip ["a"] "x" oracleSampleA oracleSampleT

/-! ## C1: heatmap shape and total -/

theorem length_le_of_nodup_lt (l : List Nat) (n : Nat) (hnd : l.Nodup)
    (hlt : ∀ x ∈ l, x < n) : l.length ≤ n := by
  have h1 : l.toFinset.card = l.length := List.toFinset_card_of_nodup hnd
  have h2 : l.toFinset ⊆ Finset.range n := by
    intro x hx
    rw [Finset.mem_range]
    exact hlt x (List.mem_toFinset.mp hx)
  calc l.length = l.toFinset.card := h1.symm
    _ ≤ (Finset.range n).card := Finset.card_le_card h2
    _ = n := Finset.card_range n

theorem heatmap_inner_sum (df : List Event) (d : Nat) :
    ((sortAsc natLtB ((df.map (·.hour)).dedup)).map (fun h =>
        df.countP (fun e => decide (e.day_of_week = d) && decide (e.hour = h)))).sum =
      (df.filter (fun e => decide (e.day_of_week = d))).length := by
  have hnd : (sortAsc natLtB ((df.map (·.hour)).dedup)).Nodup :=
    nodup_sortAsc _ _ (List.nodup_dedup _)
  have hcov : ∀ e ∈ df.filter (fun e => decide (e.day_of_week = d)),
      e.hour ∈ sortAsc natLtB ((df.map (·.hour)).dedup) := by
    intro e he
    rw [mem_sortAsc, List.mem_dedup]
    exact List.mem_map_of_mem _ (List.mem_of_mem_filter he)
  have hmain := sum_map_countP_eq_length (fun e : Event => e.hour)
    (df.filter (fun e => decide (e.day_of_week = d)))
    (sortAsc natLtB ((df.map (·.hour)).dedup)) hnd hcov
  rw [← hmain]
  congr 1
  apply List.map_congr_left
  intro h _
  rw [List.countP_filter]
  apply List.countP_congr
  intro e _
  simp [Bool.and_comm]

theorem heatmap_outer_sum (df : List Event) :
    ((sortAsc natLtB ((df.map (·.day_of_week)).dedup)).map (fun d =>
        (df.filter (fun e => decide (e.day_of_week = d))).length)).sum =
      df.length := by
  have hnd : (sortAsc natLtB ((df.map (·.day_of_week)).dedup)).Nodup :=
    nodup_sortAsc _ _ (List.nodup_dedup _)
  have hcov : ∀ e ∈ df, e.day_of_week ∈
      sortAsc natLtB ((df.map (·.day_of_week)).dedup) := by
    intro e he
    rw [mem_sortAsc, List.mem_dedup]
    exact List.mem_map_of_mem _ he
  have hmain := sum_map_countP_eq_length (fun e : Event => e.day_of_week) df
    (sortAsc natLtB ((df.map (·.day_of_week)).dedup)) hnd hcov
  rw [← hmain]
  congr 1
  apply List.map_congr_left
  intro d _
  rw [List.countP_eq_length_filter]

/-- C1 (amended): the heatmap's axes are the ascending distinct
`day_of_week` and `hour` values actually occurring in the table (so at
most, not always exactly, 7 × 24); over those axes the matrix is dense
(one row per day value, each row one cell per hour value, absent
combinations holding zero via `fillna(0)`); and the cells sum to the row
count of the input table. -/
theorem C1_heatmap_amended (df : List Event)
    (h : ∀ e ∈ df, e.day_of_week < 7 ∧ e.hour < 24) :
    (get_heatmap_data df).rows.length ≤ 7 ∧
    (get_heatmap_data df).cols.length ≤ 24 ∧
    (get_heatmap_data df).values.length = (get_heatmap_data df).rows.length ∧
    (∀ row ∈ (get_heatmap_data df).values,
      row.length = (get_heatmap_data df).cols.length) ∧
    heatmapTotal (get_heatmap_data df) = df.length := by
  refine ⟨?_, ?_, ?_, ?_, ?_⟩
  · apply length_le_of_nodup_lt _ _ (nodup_sortAsc _ _ (List.nodup_dedup _))
    intro x hx
    rw [mem_sortAsc, List.mem_dedup] at hx
    rcases List.mem_map.mp hx with ⟨e, he, rfl⟩
    exact (h e he).1
  · apply length_le_of_nodup_lt _ _ (nodup_sortAsc _ _ (List.nodup_dedup _))
    intro x hx
    rw [mem_sortAsc, List.mem_dedup] at hx
    rcases List.mem_map.mp hx with ⟨e, he, rfl⟩
    exact (h e he).2
  · exact List.length_map _ _
  · intro row hrow
    rcases List.mem_map.mp hrow with ⟨d, _, rfl⟩
    exact List.length_map _ _
  · simp only [heatmapTotal, get_heatmap_data]
    rw [List.map_map]
    have hcongr : ∀ d ∈ sortAsc natLtB ((df.map (·.day_of_week)).dedup),
        (List.sum ∘ fun d => (sortAsc natLtB ((df.map (·.hour)).dedup)).map
          (fun hh => df.countP (fun e =>
            decide (e.day_of_week = d) && decide (e.hour = hh)))) d =
        (df.filter (fun e => decide (e.day_of_week = d))).length := by
      intro d _
      exact heatmap_inner_sum df d
    rw [List.map_congr_left hcongr, heatmap_outer_sum]

/-- A single play event (Monday, hour 0) used for the C1 counterexample
and witnesses. -/
def eventSample : Event :=
  { ts := ⟨0, 2023, 1, 1, 0, 0⟩
    ms_played := 60000
    track := some "T"
    artist := some "A"
    album := some "X"
    episode_name := none
    audiobook_title := none
    skipped := false
    platform := none
    spotify_track_uri := none
    year := 2023
    month := 1
    day := 1
    hour := 0
    day_of_week := 0 }

/-- C1 (counterexample): a one-event table yields a 1 × 1 heatmap, not the
dense 7 × 24 matrix the claim asserts for every table — `pivot` creates
axes only from observed values. -/
theorem C1_heatmap_counterexample :
    ¬((get_heatmap_data [eventSample]).rows.length = 7 ∧
      (get_heatmap_data [eventSample]).cols.length = 24) := by decide

theorem C1_heatmap_amended_witness :
    (get_heatmap_data [eventSample]).rows.length ≤ 7 ∧
    (get_heatmap_data [eventSample]).cols.length ≤ 24 ∧
    (get_heatmap_data [eventSample]).values.length =
      (get_heatmap_data [eventSample]).rows.length ∧
    (∀ row ∈ (get_heatmap_data [eventSample]).values,
      row.length = (get_heatmap_data [eventSample]).cols.length) ∧
    heatmapTotal (get_heatmap_data [eventSample]) = [eventSample].length :=
  C1_heatmap_amended [eventSample] (by decide)

/-! ## C2: top-N ordering -/

theorem pairwise_key_aggPlayMinutes {κ : Type} [DecidableEq κ]
    {lt : κ → κ → Bool} (keyOf : Event → Option κ) (df : List Event)
    (htr : ∀ a b c, lt a b = true → lt b c = true → lt a c = true)
    (hco : ∀ a b, a ≠ b → lt a b = true ∨ lt b a = true) :
    (aggPlayMinutes lt keyOf df).Pairwise (fun s t => lt s.key t.key = true) := by
  unfold aggPlayMinutes
  apply List.pairwise_map.mpr
  exact pairwise_sortAsc htr hco _ (List.nodup_dedup _)

theorem pairwise_true {α : Type} (l : List α) : l.Pairwise (fun _ _ => True) := by
  induction l with
  | nil => exact List.Pairwise.nil
  | cons a l ih => exact List.pairwise_cons.mpr ⟨fun _ _ => trivial, ih⟩

/-- The output of the descending sort is non-increasing in the metric —
a property every correct sort has, independent of how ties are broken. -/
theorem pairwise_le_sortDescBy {α β : Type} [LinearOrder β] (m : α → β)
    (l : List α) : (sortDescBy m l).Pairwise (fun s t => m t ≤ m s) := by
  have h := pairwise_sortDescBy (m := m) (K := fun _ _ => True) l (pairwise_true l)
  refine h.imp ?_
  intro a b hab
  rcases hab with hlt | ⟨heq, -⟩
  · exact le_of_lt hlt
  · exact le_of_eq heq.symm

/-- C2 (amended): both top-N operations return at most `limit` rows,
sorted descending (non-increasing) by the requested metric.  The claimed
first-occurrence tie order does not hold: `groupby(sort=True)` reorders
the groups by key before the sort runs, and the default `sort_values`
kind gives no tie-order guarantee at all, so no particular tie order is
asserted. -/
theorem C2_top_amended (df : List Event) (year : Option Nat)
    (limit : Nat) (byStr : String) :
    ((get_top_artists df year limit byStr).length ≤ limit ∧
      (get_top_artists df year limit byStr).Pairwise (fun s t =>
        metricOf byStr t ≤ metricOf byStr s)) ∧
    ((get_top_tracks df year limit byStr).length ≤ limit ∧
      (get_top_tracks df year limit byStr).Pairwise (fun s t =>
        metricOf byStr t ≤ metricOf byStr s)) := by
  refine ⟨⟨?_, ?_⟩, ⟨?_, ?_⟩⟩
  · simp only [get_top_artists]
    exact List.length_take_le _ _
  · simp only [get_top_artists]
    exact (pairwise_le_sortDescBy _ _).sublist (List.take_sublist _ _)
  · simp only [get_top_tracks]
    exact List.length_take_le _ _
  · simp only [get_top_tracks]
    exact (pairwise_le_sortDescBy _ _).sublist (List.take_sublist _ _)

def eventArtistB : Event := { eventSample with artist := some "B" }

def eventArtistA : Event := { eventSample with artist := some "A" }

/-- Modelled from the spec: "the first-occurrence order of their group
key in the input table" — the distinct (non-null) artists in input
order. -/
def firstOccArtists (df : List Event) : List String :=
  dedupFirst [] (df.filterMap (·.artist))

/-- C2 (counterexample): two artists "B" then "A", one play each — the
metrics tie, yet `get_top_artists` returns them in lexicographic order
`["A", "B"]`, not the first-occurrence order `["B", "A"]` the claim
demands.  (A two-row frame is below numpy's introsort cutoff, where the
source's sort coincides exactly with the model's stable insertion sort,
so this is the source's output, not a modelling artefact: `groupby` has
already reordered the groups to `[A, B]` and the tied sort keeps them
there.) -/
theorem C2_top_counterexample :
    ((get_top_artists [eventArtistB, eventArtistA] none 20 "plays").map (·.key) =
      ["A", "B"]) ∧
    firstOccArtists [eventArtistB, eventArtistA] = ["B", "A"] ∧
    (∀ s ∈ get_top_artists [eventArtistB, eventArtistA] none 20 "plays",
      s.play_count = 1) := by decide

/-! ## C3: one-hit wonders -/

theorem trackArtistKey_eq (e : Event) (t a : String) :
    trackArtistKey e = some (t, a) ↔ e.track = some t ∧ e.artist = some a := by
  unfold trackArtistKey
  rcases ht : e.track with _ | t' <;> rcases ha : e.artist with _ | a' <;> simp

theorem trackArtistAlbumKey_eq (e : Event) (t a al : String) :
    trackArtistAlbumKey e = some (t, a, al) ↔
      e.track = some t ∧ e.artist = some a ∧ e.album = some al := by
  unfold trackArtistAlbumKey
  rcases ht : e.track with _ | t' <;> rcases ha : e.artist with _ | a' <;>
    rcases hal : e.album with _ | al' <;> simp

theorem pairFilter_eq_groupRows (df : List Event) (t a : String) :
    df.filter (fun e => decide (e.track = some t) && decide (e.artist = some a)) =
      groupRows trackArtistKey (t, a) df := by
  unfold groupRows
  apply List.filter_congr
  intro e _
  rw [← Bool.decide_and, decide_eq_decide]
  exact (trackArtistKey_eq e t a).symm

theorem tripleFilter_eq_groupRows (df : List Event) (t a al : String) :
    df.filter (fun e => decide (e.track = some t) && decide (e.artist = some a) &&
        decide (e.album = some al)) =
      groupRows trackArtistAlbumKey (t, a, al) df := by
  unfold groupRows
  apply List.filter_congr
  intro e _
  rw [← Bool.decide_and, ← Bool.decide_and, decide_eq_decide]
  rw [trackArtistAlbumKey_eq]
  tauto

theorem mem_groupKeys_pair (df : List Event) (t a : String) :
    (t, a) ∈ groupKeys pairLtB trackArtistKey df ↔
      ∃ e ∈ df, trackArtistKey e = some (t, a) := by
  unfold groupKeys
  rw [mem_sortAsc, List.mem_dedup, List.mem_filterMap]

theorem mem_groupKeys_triple (df : List Event) (t a al : String) :
    (t, a, al) ∈ groupKeys tripleLtB trackArtistAlbumKey df ↔
      ∃ e ∈ df, trackArtistAlbumKey e = some (t, a, al) := by
  unfold groupKeys
  rw [mem_sortAsc, List.mem_dedup, List.mem_filterMap]

theorem oneHit_stats_mem (df : List Event) (pdf : List PlaylistRow)
    (t a : String) :
    ((t, a) ∈ (oneHitStatsRows df pdf).map (fun r => (r.track, r.artist))) ↔
      ((groupRows trackArtistKey (t, a) df).length = 1 ∧
       (∀ e ∈ groupRows trackArtistKey (t, a) df, 120000 ≤ e.ms_played) ∧
       (some t, some a) ∉ playlistPairSet pdf) := by
  constructor
  · intro hmem
    rcases List.mem_map.mp hmem with ⟨r, hr, hkey⟩
    rcases List.mem_filter.mp hr with ⟨hr1, hcondB⟩
    rcases List.mem_filter.mp hr1 with ⟨hr0, hcondA⟩
    rcases List.mem_map.mp hr0 with ⟨⟨kt, ka⟩, hkmem, hrk⟩
    subst hrk
    obtain ⟨rfl, rfl⟩ : kt = t ∧ ka = a := by
      exact ⟨congrArg Prod.fst hkey, congrArg Prod.snd hkey⟩
    simp only [decide_eq_true_eq] at hcondA
    simp only [Bool.and_eq_true, decide_eq_true_eq, Bool.not_eq_true',
      decide_eq_false_iff_not] at hcondB
    have hlen : (groupRows trackArtistKey (kt, ka) df).length = 1 := hcondB.1
    refine ⟨hlen, ?_, hcondB.2⟩
    rcases List.length_eq_one.mp hlen with ⟨e0, he0⟩
    intro e he
    rw [he0] at he
    rcases List.mem_singleton.mp he with rfl
    have hsum : ((groupRows trackArtistKey (kt, ka) df).map (·.ms_played)).sum =
        e.ms_played := by
      rw [he0]
      simp
    rw [← hsum]
    exact hcondA
  · rintro ⟨hlen, hms, hnot⟩
    rcases List.length_eq_one.mp hlen with ⟨e0, he0⟩
    have he0df : e0 ∈ df ∧ trackArtistKey e0 = some (t, a) := by
      have : e0 ∈ groupRows trackArtistKey (t, a) df := by
        rw [he0]
        exact List.mem_singleton.mpr rfl
      rcases List.mem_filter.mp this with ⟨h1, h2⟩
      exact ⟨h1, of_decide_eq_true h2⟩
    have hkmem : (t, a) ∈ groupKeys pairLtB trackArtistKey df :=
      (mem_groupKeys_pair df t a).mpr ⟨e0, he0df.1, he0df.2⟩
    have hsum : ((groupRows trackArtistKey (t, a) df).map (·.ms_played)).sum =
        e0.ms_played := by
      rw [he0]
      simp
    apply List.mem_map.mpr
    refine ⟨⟨t, a, (groupRows trackArtistKey (t, a) df).length,
      ((groupRows trackArtistKey (t, a) df).map (·.ms_played)).sum⟩, ?_, rfl⟩
    apply List.mem_filter.mpr
    constructor
    · apply List.mem_filter.mpr
      constructor
      · exact List.mem_map.mpr ⟨(t, a), hkmem, rfl⟩
      · simp only [decide_eq_true_eq]
        show 120000 ≤ ((groupRows trackArtistKey (t, a) df).map (·.ms_played)).sum
        rw [hsum]
        exact hms e0 (by rw [he0]; exact List.mem_singleton.mpr rfl)
    · simp only [Bool.and_eq_true, decide_eq_true_eq, Bool.not_eq_true',
        decide_eq_false_iff_not]
      exact ⟨hlen, hnot⟩

theorem oneHit_table_rows_mem (df : List Event) (pdf : List PlaylistRow)
    (t a al : String) :
    ((t, a, al) ∈ (oneHitTableRows df pdf).map
        (fun r => (r.track, r.artist, r.album))) ↔
      ((groupRows trackArtistAlbumKey (t, a, al) df).length = 1 ∧
       (∀ e ∈ groupRows trackArtistAlbumKey (t, a, al) df, 120000 ≤ e.ms_played) ∧
       (some t, some a) ∉ playlistPairSet pdf) := by
  constructor
  · intro hmem
    rcases List.mem_map.mp hmem with ⟨r, hr, hkey⟩
    rcases List.mem_filter.mp hr with ⟨hr1, hcondB⟩
    rcases List.mem_filter.mp hr1 with ⟨hr0, hcondA⟩
    rcases List.mem_map.mp hr0 with ⟨⟨kt, ka, kal⟩, hkmem, hrk⟩
    subst hrk
    obtain ⟨rfl, rfl, rfl⟩ : kt = t ∧ ka = a ∧ kal = al := by
      refine ⟨congrArg Prod.fst hkey, ?_, ?_⟩
      · exact congrArg (fun p => p.2.1) hkey
      · exact congrArg (fun p => p.2.2) hkey
    simp only [Bool.and_eq_true, decide_eq_true_eq] at hcondA
    simp only [Bool.not_eq_true', decide_eq_false_iff_not] at hcondB
    have hlen : (groupRows trackArtistAlbumKey (kt, ka, kal) df).length = 1 :=
      hcondA.1
    refine ⟨hlen, ?_, hcondB⟩
    rcases List.length_eq_one.mp hlen with ⟨e0, he0⟩
    intro e he
    rw [he0] at he
    rcases List.mem_singleton.mp he with rfl
    have hsum : ((groupRows trackArtistAlbumKey (kt, ka, kal) df).map
        (·.ms_played)).sum = e.ms_played := by
      rw [he0]
      simp
    rw [← hsum]
    exact hcondA.2
  · rintro ⟨hlen, hms, hnot⟩
    rcases List.length_eq_one.mp hlen with ⟨e0, he0⟩
    have he0df : e0 ∈ df ∧ trackArtistAlbumKey e0 = some (t, a, al) := by
      have : e0 ∈ groupRows trackArtistAlbumKey (t, a, al) df := by
        rw [he0]
        exact List.mem_singleton.mpr rfl
      rcases List.mem_filter.mp this with ⟨h1, h2⟩
      exact ⟨h1, of_decide_eq_true h2⟩
    have hkmem : (t, a, al) ∈ groupKeys tripleLtB trackArtistAlbumKey df :=
      (mem_groupKeys_triple df t a al).mpr ⟨e0, he0df.1, he0df.2⟩
    have hsum : ((groupRows trackArtistAlbumKey (t, a, al) df).map
        (·.ms_played)).sum = e0.ms_played := by
      rw [he0]
      simp
    apply List.mem_map.mpr
    refine ⟨⟨t, a, al, (groupRows trackArtistAlbumKey (t, a, al) df).length,
      (((groupRows trackArtistAlbumKey (t, a, al) df).map
        (fun e => e.ts.ord)).head?).getD 0,
      ((groupRows trackArtistAlbumKey (t, a, al) df).map (·.ms_played)).sum⟩,
      ?_, rfl⟩
    apply List.mem_filter.mpr
    constructor
    · apply List.mem_filter.mpr
      constructor
      · exact List.mem_map.mpr ⟨(t, a, al), hkmem, rfl⟩
      · simp only [Bool.and_eq_true, decide_eq_true_eq]
        constructor
        · exact hlen
        · show 120000 ≤ ((groupRows trackArtistAlbumKey (t, a, al) df).map
            (·.ms_played)).sum
          rw [hsum]
          exact hms e0 (by rw [he0]; exact List.mem_singleton.mpr rfl)
    · simp only [Bool.not_eq_true', decide_eq_false_iff_not]
      exact hnot

/-- C3 (amended): `get_one_hit_wonder_stats` counts a (track, artist)
pair iff it has exactly one play event in the whole table, that event's
`ms_played ≥ 120000`, and the pair is absent (exact string equality) from
the playlist pair set.  `get_one_hit_wonders`, however, groups by
`(track, artist, album)`: it reports a *triple* iff the triple has
exactly one play event, that event's `ms_played ≥ 120000`, and the
(track, artist) pair is off-playlist — so a pair played once on each of
two different albums is reported even though the pair has two plays, and
rows with a null album are never reported. -/
theorem C3_one_hit_amended (df : List Event) (pdf : List PlaylistRow)
    (limit : Nat) (t a al : String)
    (hl : (oneHitTableRows df pdf).length ≤ limit) :
    (((t, a) ∈ (oneHitStatsRows df pdf).map (fun r => (r.track, r.artist))) ↔
      ((df.filter (fun e => decide (e.track = some t) &&
          decide (e.artist = some a))).length = 1 ∧
       (∀ e ∈ df.filter (fun e => decide (e.track = some t) &&
          decide (e.artist = some a)), 120000 ≤ e.ms_played) ∧
       (some t, some a) ∉ playlistPairSet pdf)) ∧
    (((t, a, al) ∈ (get_one_hit_wonders df pdf limit).map
        (fun r => (r.track, r.artist, r.album))) ↔
      ((df.filter (fun e => decide (e.track = some t) &&
          decide (e.artist = some a) && decide (e.album = some al))).length = 1 ∧
       (∀ e ∈ df.filter (fun e => decide (e.track = some t) &&
          decide (e.artist = some a) && decide (e.album = some al)),
         120000 ≤ e.ms_played) ∧
       (some t, some a) ∉ playlistPairSet pdf)) := by
  constructor
  · rw [pairFilter_eq_groupRows]
    exact oneHit_stats_mem df pdf t a
  · rw [tripleFilter_eq_groupRows]
    have htake : get_one_hit_wonders df pdf limit =
        sortDescBy (fun r => r.played_on) (oneHitTableRows df pdf) := by
      unfold get_one_hit_wonders
      apply List.take_of_length_le
      rw [length_sortDescBy]
      exact hl
    rw [htake]
    constructor
    · intro hmem
      rcases List.mem_map.mp hmem with ⟨r, hr, hkey⟩
      exact (oneHit_table_rows_mem df pdf t a al).mp
        (List.mem_map.mpr ⟨r, (mem_sortDescBy _ r _).mp hr, hkey⟩)
    · intro hc
      rcases List.mem_map.mp ((oneHit_table_rows_mem df pdf t a al).mpr hc)
        with ⟨r, hr, hkey⟩
      exact List.mem_map.mpr ⟨r, (mem_sortDescBy _ r _).mpr hr, hkey⟩

def eventAlbumX : Event := { eventSample with ms_played := 150000 }

def eventAlbumY : Event :=
  { eventSample with ms_played := 150000, album := some "Y" }

/-- C3 (counterexample): the pair ("T", "A") has *two* play events (one
per album), yet `get_one_hit_wonders` reports it — twice — because the
grouping key includes the album; the claim's "exactly one play event in
the whole table" biconditional is false for this operation. -/
theorem C3_one_hit_counterexample :
    ((get_one_hit_wonders [eventAlbumX, eventAlbumY] [] 50).map
        (fun r => (r.track, r.artist))) = [("T", "A"), ("T", "A")] ∧
    ([eventAlbumX, eventAlbumY].filter (fun e =>
        decide (e.track = some "T") && decide (e.artist = some "A"))).length =
      2 := by decide

theorem C3_one_hit_amended_witness :
    ((("T", "A") ∈ (oneHitStatsRows [eventAlbumX] []).map
        (fun r => (r.track, r.artist))) ↔
      (([eventAlbumX].filter (fun e => decide (e.track = some "T") &&
          decide (e.artist = some "A"))).length = 1 ∧
       (∀ e ∈ [eventAlbumX].filter (fun e => decide (e.track = some "T") &&
          decide (e.artist = some "A")), 120000 ≤ e.ms_played) ∧
       (some "T", some "A") ∉ playlistPairSet [])) ∧
    ((("T", "A", "X") ∈ (get_one_hit_wonders [eventAlbumX] [] 50).map
        (fun r => (r.track, r.artist, r.album))) ↔
      (([eventAlbumX].filter (fun e => decide (e.track = some "T") &&
          decide (e.artist = some "A") && decide (e.album = some "X"))).length = 1 ∧
       (∀ e ∈ [eventAlbumX].filter (fun e => decide (e.track = some "T") &&
          decide (e.artist = some "A") && decide (e.album = some "X")),
         120000 ≤ e.ms_played) ∧
       (some "T", some "A") ∉ playlistPairSet [])) :=
  C3_one_hit_amended [eventAlbumX] [] 50 "T" "A" "X" (by decide)

/-! ## C4: search semantics -/

/-- Modelled from the spec: "case-insensitive substring match" against an
optional field; an absent field never matches. -/
def substrCIOpt (q : String) : Option String → Bool
  | none => false
  | some s => substrCI q s

theorem containsRe_of_dotFree (q : String) (hq : '.' ∉ lowerChs q)
    (f : Option String) :
    containsRe (reToks (lowerChs q)) f = substrCIOpt q f := by
  cases f with
  | none => rfl
  | some s =>
    show reSearch (reToks (lowerChs q)) (lowerChs s) =
      subSearch (lowerChs q) (lowerChs s)
    exact reSearch_of_dotFree (lowerChs q) hq (lowerChs s)

/-- C4 (amended): `str.contains` interprets the query as a *regular
expression*, not a literal substring.  For queries none of whose
characters is a regex metacharacter, the row masks coincide with
case-insensitive substring matching on track/artist/album (track scope)
resp. artist (artist scope), with null fields never matching; and when no
row matches, both operations return an empty table rather than an error.
Queries that do contain metacharacters follow full regex semantics (see
the counterexample) or raise `re.error` on a malformed pattern, and are
outside the embedded fragment, so nothing is asserted about them here. -/
theorem C4_search_amended (df : List Event) (q : String) (limit : Nat)
    (hq : ∀ c ∈ lowerChs q, c ∉ reMeta) :
    (∀ e : Event, searchTrackMask (reToks (lowerChs q)) e =
      (substrCIOpt q e.track || substrCIOpt q e.artist || substrCIOpt q e.album)) ∧
    (∀ e : Event, searchArtistMask (reToks (lowerChs q)) e =
      substrCIOpt q e.artist) ∧
    ((∀ e ∈ df, searchTrackMask (reToks (lowerChs q)) e = false) →
      search_tracks df q limit = []) ∧
    ((∀ e ∈ df, searchArtistMask (reToks (lowerChs q)) e = false) →
      search_artists df q limit = []) := by
  have hdot : '.' ∉ lowerChs q := fun hmem => hq '.' hmem (by decide)
  refine ⟨?_, ?_, ?_, ?_⟩
  · intro e
    unfold searchTrackMask
    rw [containsRe_of_dotFree q hdot, containsRe_of_dotFree q hdot,
      containsRe_of_dotFree q hdot]
  · intro e
    unfold searchArtistMask
    rw [containsRe_of_dotFree q hdot]
  · intro hmask
    have hfilter : df.filter (searchTrackMask (reToks (lowerChs q))) = [] :=
      List.filter_eq_nil_iff.mpr (fun e he => by rw [hmask e he]; simp)
    simp only [search_tracks]
    rw [hfilter]
    rfl
  · intro hmask
    have hfilter : df.filter (searchArtistMask (reToks (lowerChs q))) = [] :=
      List.filter_eq_nil_iff.mpr (fun e he => by rw [hmask e he]; simp)
    simp only [search_artists]
    rw [hfilter]
    rfl

def eventAbc : Event := { eventSample with track := some "abc" }

/-- C4 (counterexample): the query "a.c" is *not* a substring of any
field of the row (track "abc", artist "A", album "X"), yet
`search_tracks` returns the row — `str.contains` treats `.` as the regex
wildcard, so the claim's substring biconditional is false. -/
theorem C4_search_counterexample :
    (search_tracks [eventAbc] "a.c" 50).length = 1 ∧
    substrCI "a.c" "abc" = false ∧
    substrCIOpt "a.c" eventAbc.artist = false ∧
    substrCIOpt "a.c" eventAbc.album = false := by decide

theorem C4_search_amended_witness :
    (∀ e : Event, searchTrackMask (reToks (lowerChs "abc")) e =
      (substrCIOpt "abc" e.track || substrCIOpt "abc" e.artist ||
        substrCIOpt "abc" e.album)) ∧
    (∀ e : Event, searchArtistMask (reToks (lowerChs "abc")) e =
      substrCIOpt "abc" e.artist) ∧
    ((∀ e ∈ [eventAbc], searchTrackMask (reToks (lowerChs "abc")) e = false) →
      search_tracks [eventAbc] "abc" 50 = []) ∧
    ((∀ e ∈ [eventAbc], searchArtistMask (reToks (lowerChs "abc")) e = false) →
      search_artists [eventAbc] "abc" 50 = []) :=
  C4_search_amended [eventAbc] "abc" 50 (by decide)

end SpotifyData
